import Mathlib

/-!
# Verification of the BF-Memory allocator toolkit

Shallow embedding of the core allocator library (alignment utilities,
`AllocationResult`, `MemoryRequirements`, the Linear / Stack / Pool /
Free-List / Growing-Pool strategy allocators, the type-erased
`AllocatorView` and the bounds-checking / marking decorator `Allocator`)
together with theorems settling the specification claims.

Modelling conventions:
* Pointers and `MemoryIndex` values are modelled as `Nat` byte addresses on
  the 64-bit platform the source targets; address `0` plays the role of
  `nullptr`.  Where 64-bit wraparound matters it is written out explicitly
  (`% U64`).
* `sizeof`/`alignof` constants are the 64-bit values:
  `sizeof(StackAllocatorHeader) = 16`, `sizeof(AllocationHeader) = 8`,
  `sizeof(FreeListNode) = 16`, `sizeof(PoolAllocatorBlock) = 8`,
  `sizeof(ChunkFooter) = alignof(ChunkFooter) = 8`,
  `alignof(MemoryIndex) = 8`, `sizeof(AlignmentHeader) = 1`.
* Memory that the allocators thread intrusive data structures through is
  modelled at the record level: a map from a node's address to its fields,
  updated exactly where the source writes and read exactly where it reads.
  An intrusive singly-linked free list whose links are never traversed by
  the modelled operations (pool / growing pool) is modelled as the list of
  block addresses it threads through.
* A `bfMemAssert`/`MemAssert` that guards an operation is modelled by an
  `Option` result (`none` = the assertion fires and the process aborts) or,
  where the assertion cannot influence the modelled state, by a stated
  precondition.
* Unbounded `while` loops are modelled with an explicit fuel parameter; the
  fuel-exhaustion branch returns the failure value (`Null` / `none`), so a
  *successful* result of the model is always a faithful run of the source
  loop.
-/

namespace BFMemory

/-- `AllocationResult` (`basic_types.hpp`): `{ void* ptr; MemoryIndex num_bytes; }`.
The pointer is a byte address, `0` standing for `nullptr`. -/
structure AllocationResult where
  ptr : Nat
  num_bytes : Nat
deriving DecidableEq, Repr

/-- `AllocationResult::Null()`: `{nullptr, 0u}`. -/
def AllocationResult.Null : AllocationResult := { ptr := 0, num_bytes := 0 }

/-- `AllocationResult::operator bool`: `ptr != nullptr && num_bytes != 0u`. -/
def AllocationResult.IsSuccess (r : AllocationResult) : Prop :=
  r.ptr ≠ 0 ∧ r.num_bytes ≠ 0

instance (r : AllocationResult) : Decidable r.IsSuccess := by
  unfold AllocationResult.IsSuccess; infer_instance

/-- `AllocationSourceInfo` (`basic_types.hpp`): `{file, function, line}` debug
provenance attached at call sites.  Purely diagnostic: every modelled
operation ignores it. -/
structure AllocationSourceInfo where
  file : String := ""
  func : String := ""
  line : Nat := 0

/-- `2^64`, one past the largest `MemoryIndex` value. -/
def U64 : Nat := 2 ^ 64

/-- `WillMulOverflow` (`basic_types.hpp`):
`(rhs > 1) ? (lhs > (MemoryIndex(-1) / rhs)) : false`. -/
def WillMulOverflow (lhs rhs : Nat) : Bool :=
  if rhs > 1 then lhs > (U64 - 1) / rhs else false

namespace Memory

/-- `Memory::IsValidAlignment` (`alignment.hpp`):
`alignment > 0 && (alignment & (alignment - 1)) == 0`. -/
def IsValidAlignment (alignment : Nat) : Prop :=
  0 < alignment ∧ alignment &&& (alignment - 1) = 0

instance (a : Nat) : Decidable (IsValidAlignment a) := by
  unfold IsValidAlignment; infer_instance

/-- `Memory::AlignSize` (`alignment.hpp`):
`size + (alignment-1) & ~(alignment-1)`, i.e. `size` rounded up to the next
multiple of the power-of-two `alignment`; written here in the equivalent
round-up-by-division form on `Nat`. -/
def AlignSize (size alignment : Nat) : Nat :=
  (size + (alignment - 1)) / alignment * alignment

/-- `Memory::AlignPointer` (`alignment.cpp`): the same bit-mask rounding as
`AlignSize`, applied to a pointer's integer representation. -/
def AlignPointer (ptr alignment : Nat) : Nat :=
  (ptr + (alignment - 1)) / alignment * alignment

/-- `Memory::AlignSize` as the 64-bit machine computes it: the intermediate
sum `size + (alignment - 1)` wraps at `2^64` before the mask clears the low
bits (clearing the low bits of `t` is `t - t % alignment`). -/
def AlignSizeW (size alignment : Nat) : Nat :=
  let t := (size + (alignment - 1)) % U64
  t - t % alignment

end Memory

/-! ## `MemoryRequirements` (`basic_types.hpp`) -/

/-- `MemoryRequirements`: mutable accumulator `{ size, alignment }` with the
defaults `size = 0`, `alignment = alignof(byte) = 1`. -/
structure MemoryRequirements where
  size : Nat := 0
  alignment : Nat := 1
deriving DecidableEq, Repr

/-- `MemoryRequirements::Append(element_size, element_count, element_alignment)`
(`basic_types.hpp`, the revision with the `WillMulOverflow` guard).  Returns
the updated accumulator and the offset at which the appended sub-region will
be located.  The `size` update is the 64-bit machine addition. -/
def MemoryRequirements.Append (mr : MemoryRequirements)
    (element_size element_count element_alignment : Nat) :
    MemoryRequirements × Nat :=
  if WillMulOverflow element_size element_count then (mr, mr.size)
  else
    let allocation_size := element_size * element_count
    if allocation_size = 0 then (mr, mr.size)
    else
      let allocation_offset := Memory.AlignSizeW mr.size element_alignment
      ({ size := (allocation_offset + allocation_size) % U64,
         alignment := if element_alignment > mr.alignment then element_alignment
                      else mr.alignment },
       allocation_offset)

/-- The accumulator after a sequence of `Append` calls
(`(element_size, element_count, element_alignment)` triples). -/
def appendFinal (mr : MemoryRequirements) : List (Nat × Nat × Nat) → MemoryRequirements
  | [] => mr
  | (es, ec, ea) :: ts => appendFinal (mr.Append es ec ea).1 ts

/-- The sub-regions produced by a sequence of `Append` calls: for each call,
the returned offset, the byte length `element_size * element_count` and the
`element_alignment` it was requested with. -/
def appendRegions (mr : MemoryRequirements) : List (Nat × Nat × Nat) → List (Nat × Nat × Nat)
  | [] => []
  | (es, ec, ea) :: ts =>
    let r := mr.Append es ec ea
    (r.2, es * ec, ea) :: appendRegions r.1 ts

/-- A well-formed `Append` call at accumulator state `mr`: a valid
power-of-two alignment, a non-zero region, no multiply overflow, and no
64-bit wrap in the offset/size computation. -/
def GoodStep (mr : MemoryRequirements) (t : Nat × Nat × Nat) : Prop :=
  Memory.IsValidAlignment t.2.2 ∧ 0 < t.1 * t.2.1 ∧
  WillMulOverflow t.1 t.2.1 = false ∧
  mr.size + (t.2.2 - 1) < U64 ∧
  Memory.AlignSize mr.size t.2.2 + t.1 * t.2.1 < U64

instance (mr : MemoryRequirements) (t : Nat × Nat × Nat) : Decidable (GoodStep mr t) := by
  unfold GoodStep; infer_instance

/-- A sequence of `Append` calls each of which is well-formed at the state it
runs in. -/
def GoodRun : MemoryRequirements → List (Nat × Nat × Nat) → Prop
  | _, [] => True
  | mr, t :: ts => GoodStep mr t ∧ GoodRun (mr.Append t.1 t.2.1 t.2.2).1 ts

instance instDecGoodRun : (mr : MemoryRequirements) → (ts : List (Nat × Nat × Nat)) →
    Decidable (GoodRun mr ts)
  | _, [] => by unfold GoodRun; infer_instance
  | mr, t :: ts => by
    unfold GoodRun
    have := instDecGoodRun (mr.Append t.1 t.2.1 t.2.2).1 ts
    infer_instance

/-! ## Linear allocator (`fixed_st_allocators.cpp`) -/

/-- `Memory::LinearAllocator` state: `{m_MemoryBgn, m_MemoryEnd, m_Current}`. -/
structure LinearAllocator where
  memoryBgn : Nat
  memoryEnd : Nat
  current : Nat
deriving DecidableEq, Repr

/-- `Memory::LinearAllocator::Allocate` (`fixed_st_allocators.cpp:30`). -/
def LinearAllocator.Allocate (self : LinearAllocator) (size alignment : Nat)
    (_info : AllocationSourceInfo := {}) : AllocationResult × LinearAllocator :=
  if size ≠ 0 then
    let aligned_ptr := Memory.AlignPointer self.current alignment
    let aligned_ptr_end := aligned_ptr + size
    if aligned_ptr_end ≤ self.memoryEnd then
      ({ ptr := aligned_ptr, num_bytes := size }, { self with current := aligned_ptr_end })
    else (AllocationResult.Null, self)
  else (AllocationResult.Null, self)

/-- `Memory::LinearAllocator::Deallocate` (`fixed_st_allocators.cpp:47`):
rewinds `m_Current` only when the freed span is exactly the most recent
allocation; otherwise a silent no-op. -/
def LinearAllocator.Deallocate (self : LinearAllocator) (ptr size _alignment : Nat) :
    LinearAllocator :=
  if ptr + size = self.current then { self with current := ptr } else self

/-! ## Stack allocator (`fixed_st_allocators.cpp`) -/

/-- `StackAllocatorHeader` (`fixed_st_allocators.cpp:79`):
`{ byte* restore; MemoryIndex num_bytes; }`, 16 bytes on a 64-bit target. -/
structure StackAllocatorHeader where
  restore : Nat
  num_bytes : Nat
deriving DecidableEq, Repr

/-- `sizeof(StackAllocatorHeader)` = 16. -/
def StackAllocatorHeaderSize : Nat := 16

/-- `Stack::WriteHeader`: the header store, as an update of the
address-to-header map. -/
def writeHeader (m : Nat → StackAllocatorHeader) (addr : Nat)
    (h : StackAllocatorHeader) : Nat → StackAllocatorHeader :=
  fun x => if x = addr then h else m x

/-- `Memory::StackAllocator` state: `{m_StackPtr, m_MemoryEnd}` plus the
headers the allocator has written into the backing buffer (modelled as a map
from the header's address to its two fields). -/
structure StackAllocator where
  stackPtr : Nat
  memoryEnd : Nat
  headers : Nat → StackAllocatorHeader

/-- `Memory::StackAllocator::Allocate` (`fixed_st_allocators.cpp:109`). -/
def StackAllocator.Allocate (self : StackAllocator) (size alignment : Nat)
    (_info : AllocationSourceInfo := {}) : AllocationResult × StackAllocator :=
  let needed_memory := size + StackAllocatorHeaderSize
  let restore_point := self.stackPtr
  let aligned_ptr := Memory.AlignPointer (restore_point + StackAllocatorHeaderSize) alignment
  if aligned_ptr + needed_memory ≤ self.memoryEnd then
    ({ ptr := aligned_ptr, num_bytes := size },
     { self with
        stackPtr := self.stackPtr + needed_memory,
        headers := writeHeader self.headers (aligned_ptr - StackAllocatorHeaderSize)
          { restore := restore_point, num_bytes := needed_memory } })
  else (AllocationResult.Null, self)

/-- `Memory::StackAllocator::Deallocate` (`fixed_st_allocators.cpp:127`).
The three `bfMemAssert`s guard the update; `none` models a fired assertion
(fatal abort). -/
def StackAllocator.Deallocate (self : StackAllocator) (ptr size _alignment : Nat) :
    Option StackAllocator :=
  let header := self.headers (ptr - StackAllocatorHeaderSize)
  if header.num_bytes = size ∧ header.restore < self.memoryEnd ∧
      header.restore < self.stackPtr then
    some { self with stackPtr := header.restore }
  else none

/-! ## Pool allocator (`fixed_st_allocators.cpp`) -/

/-- `sizeof(PoolAllocatorBlock)` = 8 (one pointer). -/
def PoolAllocatorBlockSize : Nat := 8

/-- `Memory::PoolAllocatorSetupResult`: head/tail of the freshly threaded
free list and the element count.  The chain head..tail is represented as the
list of block addresses. -/
structure PoolAllocatorSetupResult where
  blocks : List Nat
  num_elements : Nat
deriving DecidableEq, Repr

/-- `Memory::PoolAllocator::SetupPool` (`fixed_st_allocators.cpp:206`):
partitions the buffer into `memory_available / AlignSize(block_size, alignment)`
slots starting at the aligned base address and threads them into a free list
in ascending address order. -/
def PoolAllocator.SetupPool (memory_block memory_size block_size alignment : Nat) :
    PoolAllocatorSetupResult :=
  let aligned_block_size := Memory.AlignSize block_size alignment
  let base_address := Memory.AlignPointer memory_block alignment
  let memory_end := memory_block + memory_size
  let memory_available := memory_end - base_address
  let num_elements := memory_available / aligned_block_size
  { blocks := (List.range num_elements).map (fun i => base_address + aligned_block_size * i),
    num_elements := num_elements }

/-- `Memory::PoolAllocator` state.  `poolHead` is the intrusive free list,
as the list of free block addresses it threads through. -/
structure PoolAllocator where
  memoryBgn : Nat
  memoryEnd : Nat
  blockSize : Nat
  alignment : Nat
  poolHead : List Nat
  numElements : Nat
deriving DecidableEq, Repr

/-- `Memory::PoolAllocator::Allocate` (`fixed_st_allocators.cpp:176`): pops
the free-list head in O(1).  `bfMemAssert` preconditions (stated on the
theorems): `size <= m_BlockSize` and `alignment <= m_Alignment`. -/
def PoolAllocator.Allocate (self : PoolAllocator) (_size _alignment : Nat)
    (_info : AllocationSourceInfo := {}) : AllocationResult × PoolAllocator :=
  match self.poolHead with
  | [] => (AllocationResult.Null, self)
  | block :: rest =>
    ({ ptr := block, num_bytes := self.blockSize }, { self with poolHead := rest })

/-- `Memory::PoolAllocator::Deallocate` (`fixed_st_allocators.cpp:193`):
pushes the block back onto the free-list head.  `bfMemAssert` preconditions:
size/alignment fit the pool, the pointer lies in the pool's range and is
aligned. -/
def PoolAllocator.Deallocate (self : PoolAllocator) (ptr _size _alignment : Nat) :
    PoolAllocator :=
  { self with poolHead := ptr :: self.poolHead }

/-! ## Free-list allocator (`fixed_st_allocators.cpp`) -/

/-- `sizeof(AllocationHeader)` = 8. -/
def AllocationHeaderSize : Nat := 8

/-- `sizeof(FreeListNode)` = 16 (header + next pointer). -/
def FreeListNodeSize : Nat := 16

/-- `sizeof(AlignmentHeader)` = 1 (a `uint8_t`). -/
def AlignmentHeaderSize : Nat := 1

/-- `FreeList::MaxAlignment` = 255. -/
def FreeListMaxAlignment : Nat := 255

/-- A `Memory::FreeListNode` as it sits in memory at some address:
`{ size (from the AllocationHeader); next }`.  `size` is the byte count of
the region after the header; for a free node it includes the space of
`next`. -/
structure FreeListNode where
  size : Nat
  next : Nat
deriving DecidableEq, Repr

/-- Memory write at the node level: update the record stored at `addr`. -/
def setNode (m : Nat → FreeListNode) (addr : Nat) (n : FreeListNode) :
    Nat → FreeListNode :=
  fun x => if x = addr then n else m x

/-- `Memory::FreeListAllocator` state: the free-list head pointer plus the
node records in the backing buffer. -/
structure FreeListAllocator where
  freelist : Nat
  mem : Nat → FreeListNode

/-- `FreeList::AlignedAllocationSize` (`fixed_st_allocators.cpp:249`):
`size != 0 ? sizeof(AlignmentHeader) + size + (alignment - 1) : 0`. -/
def AlignedAllocationSize (size alignment : Nat) : Nat :=
  if size ≠ 0 then AlignmentHeaderSize + size + (alignment - 1) else 0

/-- The first-fit scan loop of
`Memory::FreeListAllocator::AllocateInternal` (`fixed_st_allocators.cpp:306`),
with fuel for the `while (curr_node)` loop.  Returns the allocation result
and the updated allocator. -/
def AllocateInternalLoop (fuel : Nat) (mem : Nat → FreeListNode) (freelist : Nat)
    (size : Nat) (prev_node curr_node : Nat) : AllocationResult × FreeListAllocator :=
  match fuel with
  | 0 => (AllocationResult.Null, { freelist := freelist, mem := mem })
  | fuel + 1 =>
    if curr_node = 0 then (AllocationResult.Null, { freelist := freelist, mem := mem })
    else if (mem curr_node).size < size then
      -- Block is not big enough so skip over it.
      AllocateInternalLoop fuel mem freelist size curr_node (mem curr_node).next
    else
      let block_size := (mem curr_node).size
      let space_after_alloc := block_size - size
      -- split off the remainder as a new free node when it exceeds the
      -- minimum node footprint; `step1 = (block_next, mem after the split)`
      let step1 : Nat × (Nat → FreeListNode) :=
        if space_after_alloc > FreeListNodeSize then
          let offset_from_block := AllocationHeaderSize + size
          let new_node := curr_node + offset_from_block
          let mem1 := setNode mem new_node
            { size := block_size - offset_from_block - AllocationHeaderSize,
              next := (mem curr_node).next }
          (new_node, setNode mem1 curr_node { mem1 curr_node with size := size })
        else ((mem curr_node).next, mem)
      -- unlink the consumed node: `prev_node->next = block_next` or head
      let step2 : Nat × (Nat → FreeListNode) :=
        if prev_node ≠ 0 then
          (freelist, setNode step1.2 prev_node { step1.2 prev_node with next := step1.1 })
        else (step1.1, step1.2)
      ({ ptr := curr_node + AllocationHeaderSize, num_bytes := (step2.2 curr_node).size },
       { freelist := step2.1, mem := step2.2 })

/-- `Memory::FreeListAllocator::AllocateInternal`: run the loop from
`prev_node = nullptr`, `curr_node = m_Freelist`. -/
def FreeListAllocator.AllocateInternal (fuel : Nat) (self : FreeListAllocator)
    (size : Nat) : AllocationResult × FreeListAllocator :=
  AllocateInternalLoop fuel self.mem self.freelist size 0 self.freelist

/-- `Memory::FreeListAllocator::Allocate` (`fixed_st_allocators.cpp:260`).
`bfMemAssert(alignment <= FreeList::MaxAlignment)` is a stated precondition.
The one-byte offset header written at `data_start[-1]` lives in payload
bytes; it is only read back by the outer `Deallocate` and is not part of the
node-level memory model. -/
def FreeListAllocator.Allocate (fuel : Nat) (self : FreeListAllocator)
    (size alignment : Nat) (_info : AllocationSourceInfo := {}) :
    AllocationResult × FreeListAllocator :=
  let allocation_size := AlignedAllocationSize size alignment
  let r := self.AllocateInternal fuel allocation_size
  let allocation := r.1
  if allocation.IsSuccess then
    let data_start := Memory.AlignPointer (allocation.ptr + AlignmentHeaderSize) alignment
    -- `AlignmentHeader(data_start - allocation.ptr)` is a `uint8_t` cast
    let data_offset := (data_start - allocation.ptr) % 256
    ({ ptr := data_start, num_bytes := allocation.num_bytes - data_offset }, r.2)
  else (AllocationResult.Null, r.2)

/-- The neighbour scan of
`Memory::FreeListAllocator::DeallocateInternal` (`fixed_st_allocators.cpp:364`):
walk the address-ordered free list until `current` is past the freed node's
end or the node just passed can be merged with it.  Returns the final
`(previous, current)`; `none` on fuel exhaustion. -/
def DeallocateScanLoop (fuel : Nat) (mem : Nat → FreeListNode)
    (node_begin node_end : Nat) (previous current : Nat) : Option (Nat × Nat) :=
  match fuel with
  | 0 => none
  | fuel + 1 =>
    if current = 0 then some (previous, current)
    else if node_end ≤ current ∨
        (previous ≠ 0 ∧ previous + AllocationHeaderSize + (mem previous).size = node_begin) then
      some (previous, current)
    else DeallocateScanLoop fuel mem node_begin node_end current (mem current).next

/-- `Memory::FreeListAllocator::DeallocateInternal` (`fixed_st_allocators.cpp:352`).
Exactly one of merge-forward / merge-backward / plain-insert happens.
`none` models the fired `bfMemAssert(size <= header->size)` (or fuel
exhaustion of the scan). -/
def FreeListAllocator.DeallocateInternal (fuel : Nat) (self : FreeListAllocator)
    (ptr size : Nat) : Option FreeListAllocator :=
  let node := ptr - AllocationHeaderSize
  if size ≤ (self.mem node).size then
    let node_begin := node
    let node_end := node + AllocationHeaderSize + (self.mem node).size
    match DeallocateScanLoop fuel self.mem node_begin node_end 0 self.freelist with
    | none => none
    | some (previous, current) =>
      if current ≠ 0 ∧ current = node_end then
        -- Merge Node => Current
        let fl1 := if previous ≠ 0 then self.freelist else node
        let mem1 := if previous ≠ 0 then
            setNode self.mem previous { self.mem previous with next := node }
          else self.mem
        some { freelist := fl1,
               mem := setNode mem1 node
                 { size := (mem1 node).size + ((mem1 current).size + AllocationHeaderSize),
                   next := (mem1 current).next } }
      else if previous ≠ 0 then
        if previous + AllocationHeaderSize + (self.mem previous).size = node_begin then
          -- Merge Prev => Node
          some { freelist := self.freelist,
                 mem := setNode self.mem previous
                   { self.mem previous with
                      size := (self.mem previous).size +
                        ((self.mem node).size + AllocationHeaderSize) } }
        else
          -- Add To Freelist (after previous)
          let mem1 := setNode self.mem node { self.mem node with next := (self.mem previous).next }
          some { freelist := self.freelist,
                 mem := setNode mem1 previous { mem1 previous with next := node } }
      else
        -- Add To Freelist (at head)
        some { freelist := node,
               mem := setNode self.mem node { self.mem node with next := self.freelist } }
  else none

/-- The `(address, size)` pairs of the free list, head first (fuel-bounded
walk used to observe an allocator state). -/
def freeNodesGo (fuel : Nat) (mem : Nat → FreeListNode) (addr : Nat) : List (Nat × Nat) :=
  match fuel, addr with
  | 0, _ => []
  | _, 0 => []
  | fuel + 1, a => (a, (mem a).size) :: freeNodesGo fuel mem (mem a).next

/-- Observe a free-list allocator's free nodes as `(address, size)` pairs. -/
def freeNodes (fuel : Nat) (self : FreeListAllocator) : List (Nat × Nat) :=
  freeNodesGo fuel self.mem self.freelist

/-- The `Memory::FreeListAllocator` constructor (declared in
`fixed_st_allocators.hpp:222`; its body, as in the identical constructor of
the repository's earlier revision `basic_allocators.cpp:348`, makes the whole
buffer one free node: `freelist->size = memory_block_size - sizeof(AllocationHeader);
freelist->next = nullptr;`).  Unwritten memory is modelled as zeroed
records. -/
def FreeListAllocator.mkInit (memory_block memory_block_size : Nat) : FreeListAllocator :=
  { freelist := memory_block,
    mem := setNode (fun _ => { size := 0, next := 0 }) memory_block
      { size := memory_block_size - AllocationHeaderSize, next := 0 } }

/-! ## Allocator concept and type-erased view (`basic_types.hpp`) -/

/-- The static allocator concept: any type offering
`Allocate(size, alignment, source_info) -> AllocationResult` and
`Deallocate(ptr, size, alignment)`, over an explicit state `S`. -/
structure AllocatorOps (S : Type) where
  Allocate : S → Nat → Nat → AllocationSourceInfo → AllocationResult × S
  Deallocate : S → Nat → Nat → Nat → S

/-- `AllocationOp` (`basic_types.hpp:189`). -/
inductive AllocationOp where
  | DO_ALLOCATE
  | DO_DEALLOCATE
deriving DecidableEq, Repr

/-- `AllocatorView::AllocateImpl<AllocatorConcept>`
(`basic_types.hpp:269`): the dispatch thunk.  The C++ `void* ptr` argument
doubles as the source-info pointer for `DO_ALLOCATE`; the model passes both
explicitly. -/
def AllocatorView.AllocateImpl {S : Type} (ops : AllocatorOps S)
    (size alignment : Nat) (info : AllocationSourceInfo) (ptr : Nat)
    (op : AllocationOp) (self : S) : AllocationResult × S :=
  match op with
  | .DO_ALLOCATE => ops.Allocate self size alignment info
  | .DO_DEALLOCATE => (AllocationResult.Null, ops.Deallocate self ptr size alignment)

/-- `AllocatorView`: `{ self, allocate_fn }` — a non-owning view capturing
the referenced allocator's state together with the dispatch thunk
specialized to its concrete operations. -/
structure AllocatorView (S : Type) where
  self : S
  ops : AllocatorOps S

/-- `AllocatorView::Allocate` (`basic_types.hpp:258`). -/
def AllocatorView.Allocate {S : Type} (view : AllocatorView S)
    (size alignment : Nat) (info : AllocationSourceInfo) : AllocationResult × S :=
  AllocatorView.AllocateImpl view.ops size alignment info 0
    AllocationOp.DO_ALLOCATE view.self

/-- `AllocatorView::Deallocate` (`basic_types.hpp:263`): the thunk's
`AllocationResult::Null()` return is discarded. -/
def AllocatorView.Deallocate {S : Type} (view : AllocatorView S)
    (ptr size alignment : Nat) : S :=
  (AllocatorView.AllocateImpl view.ops size alignment {} ptr
    AllocationOp.DO_DEALLOCATE view.self).2

/-! ## Growing pool allocator (`growing_st_allocators.cpp`) -/

/-- `sizeof(ChunkFooter)` = 8 (one pointer). -/
def ChunkFooterSize : Nat := 8

/-- `alignof(ChunkFooter)` = 8. -/
def ChunkFooterAlign : Nat := 8

/-- `Memory::GrowingPoolAllocator` state.  `chunks` is the chunk list as the
footer addresses it threads through (most recent first); `poolHead` is the
shared block free list as the block addresses it threads through. -/
structure GrowingPoolAllocator where
  blockSize : Nat
  alignment : Nat
  chunkMemSize : Nat
  chunks : List Nat
  poolHead : List Nat
deriving DecidableEq, Repr

/-- The `Memory::GrowingPoolAllocator` constructor
(`growing_st_allocators.cpp:7`): raises `block_size` to at least
`sizeof(PoolAllocatorBlock)` and `alignment` to at least
`alignof(ChunkFooter)`.  `MemAssert` preconditions: `block_size > 0`,
`num_blocks_per_chunk > 0`. -/
def GrowingPoolAllocator.mkInit (block_size block_alignment num_blocks_per_chunk : Nat) :
    GrowingPoolAllocator :=
  let bs := if block_size < PoolAllocatorBlockSize then PoolAllocatorBlockSize else block_size
  let al := if block_alignment < ChunkFooterAlign then ChunkFooterAlign else block_alignment
  { blockSize := bs,
    alignment := al,
    chunkMemSize := Memory.AlignSize (bs * num_blocks_per_chunk) ChunkFooterAlign,
    chunks := [],
    poolHead := [] }

/-- Result of one growing-pool operation: the allocation result, the updated
allocator and parent state, and the chunks successfully obtained from the
parent during the operation, as `(address, requested byte count)` pairs. -/
structure GrowingPoolStep (P : Type) where
  result : AllocationResult
  state : GrowingPoolAllocator
  parent : P
  parentAllocs : List (Nat × Nat)

/-- `Memory::GrowingPoolAllocator::Allocate` (`growing_st_allocators.cpp:64`):
pop the shared free list; on exhaustion request one chunk of
`m_ChunkMemSize + sizeof(ChunkFooter)` bytes from the parent, link it into
the chunk list, thread its blocks (`SetupPool`) and retry the pop (the
`goto pool_alloc`).  `MemAssert` preconditions: `size <= m_BlockSize`,
`alignment <= m_Alignment`. -/
def GrowingPoolAllocator.Allocate {P : Type} (parent : AllocatorOps P)
    (self : GrowingPoolAllocator) (pstate : P) (_size _alignment : Nat)
    (info : AllocationSourceInfo := {}) : GrowingPoolStep P :=
  match self.poolHead with
  | block :: rest =>
    { result := { ptr := block, num_bytes := self.blockSize },
      state := { self with poolHead := rest }, parent := pstate, parentAllocs := [] }
  | [] =>
    let req := self.chunkMemSize + ChunkFooterSize
    let r := parent.Allocate pstate req self.alignment info
    let new_chunk_memory := r.1
    if new_chunk_memory.IsSuccess then
      let chunk_bytes := new_chunk_memory.ptr
      let new_chunk := chunk_bytes + self.chunkMemSize
      let self1 := { self with chunks := new_chunk :: self.chunks }
      let setup := PoolAllocator.SetupPool chunk_bytes self.chunkMemSize
        self.blockSize self.alignment
      match setup.blocks with
      | head :: rest2 =>
        { result := { ptr := head, num_bytes := self.blockSize },
          state := { self1 with poolHead := rest2 }, parent := r.2,
          parentAllocs := [(chunk_bytes, req)] }
      | [] =>
        { result := AllocationResult.Null, state := self1, parent := r.2,
          parentAllocs := [(chunk_bytes, req)] }
    else
      { result := AllocationResult.Null, state := self, parent := r.2,
        parentAllocs := [] }

/-- `Memory::GrowingPoolAllocator::Deallocate` (`growing_st_allocators.cpp:101`):
push the block back onto the shared free list; blocks are never returned to
the parent individually.  `MemAssert` preconditions: size/alignment fit. -/
def GrowingPoolAllocator.Deallocate (self : GrowingPoolAllocator)
    (ptr _size _alignment : Nat) : GrowingPoolAllocator :=
  { self with poolHead := ptr :: self.poolHead }

/-- `Memory::GrowingPoolAllocator::Clear` (`growing_st_allocators.cpp:23`):
re-derive the free list by re-running `SetupPool` over every chunk, without
releasing chunk memory.  Each chunk's run is prepended (tail linked to the
previous head). -/
def GrowingPoolAllocator.Clear (self : GrowingPoolAllocator) : GrowingPoolAllocator :=
  { self with
     poolHead := self.chunks.foldl (fun acc chunk =>
       let chunk_bytes := chunk - self.chunkMemSize
       let setup := PoolAllocator.SetupPool chunk_bytes self.chunkMemSize
         self.blockSize self.alignment
       setup.blocks ++ acc) [] }

/-- The chunk-walk of `Memory::GrowingPoolAllocator::FreeMemory`
(`growing_st_allocators.cpp:45`): deallocate every chunk
(`chunk_bytes = footer - m_ChunkMemSize`, `m_ChunkMemSize + sizeof(ChunkFooter)`
bytes) to the parent.  Returns the parent state and the `(address, byte count)`
pairs returned to the parent, in walk order. -/
def freeChunks {P : Type} (parent : AllocatorOps P) (chunkMemSize alignment : Nat) :
    List Nat → P → P × List (Nat × Nat)
  | [], p => (p, [])
  | chunk :: rest, p =>
    let chunk_bytes := chunk - chunkMemSize
    let p1 := parent.Deallocate p chunk_bytes (chunkMemSize + ChunkFooterSize) alignment
    let r := freeChunks parent chunkMemSize alignment rest p1
    (r.1, (chunk_bytes, chunkMemSize + ChunkFooterSize) :: r.2)

/-- `Memory::GrowingPoolAllocator::FreeMemory` (`growing_st_allocators.cpp:45`):
null the chunk/free-list heads and return every chunk to the parent. -/
def GrowingPoolAllocator.FreeMemory {P : Type} (parent : AllocatorOps P)
    (self : GrowingPoolAllocator) (pstate : P) :
    GrowingPoolAllocator × P × List (Nat × Nat) :=
  let r := freeChunks parent self.chunkMemSize self.alignment self.chunks pstate
  ({ self with chunks := [], poolHead := [] }, r.1, r.2)

/-- A growing-pool API call. -/
inductive GrowingPoolOp where
  | alloc (size alignment : Nat) (info : AllocationSourceInfo)
  | dealloc (ptr size alignment : Nat)
  | clear

/-- Run a sequence of growing-pool operations, accumulating (in call order)
the chunks successfully obtained from the parent. -/
def runGrowingPool {P : Type} (parent : AllocatorOps P) :
    List GrowingPoolOp → GrowingPoolAllocator → P → GrowingPoolStep P
  | [], s, p => { result := AllocationResult.Null, state := s, parent := p, parentAllocs := [] }
  | op :: rest, s, p =>
    match op with
    | .alloc size alignment info =>
      let st := s.Allocate parent p size alignment info
      let rr := runGrowingPool parent rest st.state st.parent
      { rr with parentAllocs := st.parentAllocs ++ rr.parentAllocs }
    | .dealloc ptr size alignment =>
      runGrowingPool parent rest (s.Deallocate ptr size alignment) p
    | .clear => runGrowingPool parent rest s.Clear p

/-! ## The decorator `Allocator<Base, MarkPolicy, BoundCheck, Tracking, Lock>`
(`basic_types.hpp:402`) -/

/-- `Memory::GuardBytePattern` = `0xAB`. -/
def GuardBytePattern : Nat := 0xAB

/-- `Memory::AllocatedBytePattern` = `0xCD`. -/
def AllocatedBytePattern : Nat := 0xCD

/-- `Memory::FreeBytePattern` = `0xDD`. -/
def FreeBytePattern : Nat := 0xDD

/-- `alignof(MemoryIndex)` = 8. -/
def MemoryIndexAlign : Nat := 8

/-- The observable side effects of one decorator operation, in program
order: instrumentation stores/fills (`GuardBytes`, `MarkAllocatedBytes`,
`MarkFreedBytes`, the size-header store), guard-byte verification
(`CheckGuardBytes` — whether it passes depends on the byte contents, i.e.
on whether the program corrupted the guards), tracking-policy hooks and the
delegation to the base allocator's `Deallocate`.  The `LockPolicy`
`Lock`/`Unlock` bracket (a no-op for the default `NoLock`) is not recorded. -/
inductive Effect where
  | storeSizeHeader (addr value : Nat)
  | fillBytes (addr len pattern : Nat)
  | checkGuardBytes (addr len : Nat)
  | trackAllocate (res : AllocationResult) (requested_bytes alignment : Nat)
  | trackDeallocate (addr num_bytes alignment : Nat)
  | baseDeallocate (addr size alignment : Nat)
deriving DecidableEq, Repr

/-- `Allocator::Allocate` (`basic_types.hpp:441`), for a base allocator with
state `S`, parameterized by the two compile-time policies
(`BoundCheck = BoundCheckingPolicy::CHECKED`,
`Marking = AllocationMarkPolicy::MARKED`).  Widens the request by three
guard zones, delegates, then hides the header/guard zones from the caller. -/
def Allocator.Allocate {S : Type} (BoundCheck Marking : Bool)
    (base : AllocatorOps S) (self : S) (size alignment0 : Nat)
    (info : AllocationSourceInfo := {}) : AllocationResult × S × List Effect :=
  let alignment := if BoundCheck ∧ alignment0 < MemoryIndexAlign then MemoryIndexAlign
                   else alignment0
  let guard_size := if BoundCheck then alignment else 0
  let total_size := guard_size + guard_size + size + guard_size
  let r := base.Allocate self total_size alignment info
  let allocation := r.1
  if allocation.IsSuccess then
    let extra_bytes := allocation.num_bytes - total_size
    let bytes := allocation.ptr
    let user_memory_size := size + extra_bytes
    let size_header := bytes
    let guard_bytes_front := size_header + guard_size
    let mark_bytes := guard_bytes_front + guard_size
    let guard_bytes_back := mark_bytes + user_memory_size
    ({ ptr := mark_bytes, num_bytes := user_memory_size }, r.2,
     [Effect.trackAllocate allocation total_size alignment] ++
     (if BoundCheck then [Effect.storeSizeHeader size_header user_memory_size] else []) ++
     (if BoundCheck then [Effect.fillBytes guard_bytes_front guard_size GuardBytePattern] else []) ++
     (if Marking then [Effect.fillBytes mark_bytes user_memory_size AllocatedBytePattern] else []) ++
     (if BoundCheck then [Effect.fillBytes guard_bytes_back guard_size GuardBytePattern] else []))
  else (AllocationResult.Null, r.2, [])

/-- `Allocator::Deallocate` (`basic_types.hpp:490`).  `mem` is the byte
memory holding the stored size header (read only when bounds-checking is
enabled, to locate the back guard zone). -/
def Allocator.Deallocate {S : Type} (BoundCheck Marking : Bool)
    (base : AllocatorOps S) (mem : Nat → Nat) (self : S)
    (ptr size alignment0 : Nat) : S × List Effect :=
  if ptr ≠ 0 then
    let alignment := if BoundCheck ∧ alignment0 < MemoryIndexAlign then MemoryIndexAlign
                     else alignment0
    let guard_size := if BoundCheck then alignment else 0
    let total_size := guard_size + guard_size + size + guard_size
    let bytes := ptr - guard_size - guard_size
    let size_header := bytes
    let guard_bytes_front := size_header + guard_size
    let mark_bytes := guard_bytes_front + guard_size
    let checkEffects :=
      if BoundCheck then
        let user_memory_size := mem size_header
        let guard_bytes_back := mark_bytes + user_memory_size
        [Effect.checkGuardBytes guard_bytes_front guard_size,
         Effect.checkGuardBytes guard_bytes_back guard_size]
      else []
    let markEffects := if Marking then [Effect.fillBytes mark_bytes size FreeBytePattern] else []
    (base.Deallocate self bytes total_size alignment,
     checkEffects ++ markEffects ++
     [Effect.trackDeallocate bytes total_size alignment,
      Effect.baseDeallocate bytes total_size alignment])
  else (self, [])

/-- The Linear allocator presented as the static allocator concept (used as
a concrete base strategy in the decorator theorems). -/
def linearOps : AllocatorOps LinearAllocator :=
  { Allocate := fun s size alignment info => s.Allocate size alignment info,
    Deallocate := fun s ptr size alignment => s.Deallocate ptr size alignment }

/-!
## Theorems

Supporting lemmas about the embedded operations, followed by one theorem per
specification claim (with witnesses / counterexamples where applicable).
-/

theorem AllocationResult.Null_not_IsSuccess : ¬ AllocationResult.Null.IsSuccess := by
  decide

namespace Memory

theorem AlignPointer_mod (ptr alignment : Nat) :
    AlignPointer ptr alignment % alignment = 0 := by
  unfold AlignPointer
  exact Nat.mul_mod_left _ _

theorem le_AlignPointer (ptr alignment : Nat) (h : 0 < alignment) :
    ptr ≤ AlignPointer ptr alignment := by
  unfold AlignPointer
  have h1 : ptr + (alignment - 1) < (ptr + (alignment - 1)) / alignment * alignment + alignment :=
    Nat.lt_div_mul_add h
  omega

theorem AlignPointer_le (ptr alignment : Nat) :
    AlignPointer ptr alignment ≤ ptr + (alignment - 1) := by
  unfold AlignPointer
  exact Nat.div_mul_le_self _ _

theorem AlignSize_mod (size alignment : Nat) :
    AlignSize size alignment % alignment = 0 := by
  unfold AlignSize
  exact Nat.mul_mod_left _ _

theorem le_AlignSize (size alignment : Nat) (h : 0 < alignment) :
    size ≤ AlignSize size alignment := by
  unfold AlignSize
  have h1 : size + (alignment - 1) < (size + (alignment - 1)) / alignment * alignment + alignment :=
    Nat.lt_div_mul_add h
  omega

theorem AlignSize_le (size alignment : Nat) :
    AlignSize size alignment ≤ size + (alignment - 1) := by
  unfold AlignSize
  exact Nat.div_mul_le_self _ _

/-- A valid alignment, i.e. a value passing the source's
`alignment > 0 && (alignment & (alignment - 1)) == 0` check, is a power of
two. -/
theorem IsValidAlignment.exists_pow (a : Nat) (h : IsValidAlignment a) :
    ∃ k, a = 2 ^ k := by
  obtain ⟨hpos, hland⟩ := h
  induction a using Nat.strong_induction_on with
  | _ a ih =>
    rcases Nat.even_or_odd a with he | ho
    · obtain ⟨b, hb⟩ := he
      have hb2 : a = 2 * b := by omega
      have hbpos : 0 < b := by omega
      have hland' : b &&& (b - 1) = 0 := by
        have key : ∀ i, (b &&& (b - 1)).testBit i = false := by
          intro i
          have := congrArg (fun n => n.testBit (i + 1)) hland
          simp only [Nat.zero_testBit] at this ⊢
          rw [Nat.testBit_land] at this ⊢
          have e1 : a.testBit (i + 1) = b.testBit i := by
            rw [hb2, Nat.testBit_succ]
            congr 1
            omega
          have e2 : (a - 1).testBit (i + 1) = (b - 1).testBit i := by
            have hs : a - 1 = 2 * (b - 1) + 1 := by omega
            rw [hs, Nat.testBit_succ]
            congr 1
            omega
          rw [e1, e2] at this
          exact this
        exact Nat.eq_of_testBit_eq fun i => by rw [key i, Nat.zero_testBit]
      obtain ⟨k, hk⟩ := ih b (by omega) hbpos hland'
      exact ⟨k + 1, by rw [hb2, hk, Nat.pow_succ]; ring⟩
    · by_cases h1 : a = 1
      · exact ⟨0, by simp [h1]⟩
      · exfalso
        obtain ⟨m, hm⟩ := ho
        have hm1 : 1 ≤ m := by omega
        obtain ⟨j, hj⟩ : ∃ j, m.testBit j = true := by
          by_contra hc
          push_neg at hc
          have : m = 0 := Nat.eq_of_testBit_eq fun i => by
            rw [Nat.zero_testBit]
            simpa using hc i
          omega
        have e1 : a.testBit (j + 1) = m.testBit j := by
          rw [hm, Nat.testBit_succ]
          congr 1
          omega
        have e2 : (a - 1).testBit (j + 1) = m.testBit j := by
          have hs : a - 1 = 2 * m := by omega
          rw [hs, Nat.testBit_succ]
          congr 1
          omega
        have := congrArg (fun n => n.testBit (j + 1)) hland
        simp only [Nat.zero_testBit] at this
        rw [Nat.testBit_land, e1, e2, hj] at this
        simp at this

/-- A smaller valid alignment divides a larger one (both are powers of two). -/
theorem IsValidAlignment.dvd_of_le {a b : Nat}
    (ha : IsValidAlignment a) (hb : IsValidAlignment b) (hle : a ≤ b) :
    a ∣ b := by
  obtain ⟨i, hi⟩ := IsValidAlignment.exists_pow a ha
  obtain ⟨j, hj⟩ := IsValidAlignment.exists_pow b hb
  subst hi hj
  exact pow_dvd_pow 2 ((Nat.pow_le_pow_iff_right (by omega)).1 hle)

end Memory

theorem setNode_self (m : Nat → FreeListNode) (a : Nat) (v : FreeListNode) :
    setNode m a v a = v := by
  simp [setNode]

theorem setNode_other (m : Nat → FreeListNode) (a : Nat) (v : FreeListNode)
    (x : Nat) (h : x ≠ a) : setNode m a v x = m x := by
  simp [setNode, h]

/-- Updating only the `next` field of the record at `a` leaves every `size`
field unchanged. -/
theorem setNode_next_size (m : Nat → FreeListNode) (a n x : Nat) :
    ((setNode m a { m a with next := n }) x).size = (m x).size := by
  unfold setNode
  by_cases h : x = a <;> simp [h]

/-- C6: every failing Linear `Allocate` — a zero-size request, or a request
whose aligned pointer plus size would exceed `m_MemoryEnd` — returns the
Null `AllocationResult` and leaves the allocator state (in particular
`m_Current`) completely unchanged. -/
theorem claim_C6 (st : LinearAllocator) (size alignment : Nat)
    (info : AllocationSourceInfo)
    (h : size = 0 ∨ st.memoryEnd < Memory.AlignPointer st.current alignment + size) :
    st.Allocate size alignment info = (AllocationResult.Null, st) := by
  unfold LinearAllocator.Allocate
  rcases h with h0 | hover
  · simp [h0]
  · by_cases h0 : size = 0
    · simp [h0]
    · simp only [h0, ne_eq, not_false_eq_true, if_true]
      rw [if_neg (by omega)]

/-- Witness for C6: a concrete over-budget request on a concrete allocator. -/
theorem claim_C6_witness :
    (⟨8, 16, 8⟩ : LinearAllocator).Allocate 100 8 {} =
      (AllocationResult.Null, ⟨8, 16, 8⟩) :=
  claim_C6 ⟨8, 16, 8⟩ 100 8 {} (Or.inr (by decide))

/-- C9: calling `Allocate` (resp. `Deallocate`) through an `AllocatorView`
constructed from a concrete allocator returns exactly the same
`AllocationResult` and performs exactly the same state change as calling the
allocator's own operation directly: the type-erased `AllocateImpl` dispatch
thunk is behavior-preserving. -/
theorem claim_C9 {S : Type} (a : AllocatorOps S) (s : S)
    (size alignment : Nat) (info : AllocationSourceInfo) (ptr : Nat) :
    (AllocatorView.mk s a).Allocate size alignment info = a.Allocate s size alignment info ∧
    (AllocatorView.mk s a).Deallocate ptr size alignment = a.Deallocate s ptr size alignment :=
  ⟨rfl, rfl⟩

/-- C10: the decorator's `Deallocate` with a null pointer is a complete
no-op for every policy configuration: the base allocator's `Deallocate` is
never invoked, no guard-byte check or byte marking occurs, no tracking hook
runs, and the base state is unchanged (the whole body is guarded by
`if (ptr)`). -/
theorem claim_C10 {S : Type} (BoundCheck Marking : Bool) (base : AllocatorOps S)
    (mem : Nat → Nat) (s : S) (size alignment : Nat) :
    Allocator.Deallocate BoundCheck Marking base mem s 0 size alignment = (s, []) := by
  simp [Allocator.Deallocate]

/-- C5 counterexample: over the same Linear base state, the debug
configuration (bounds-checking and marking on) and the release configuration
(both off) return different pointers to the caller — the guard zones shift
the user pointer by `2 * alignment`, so disabling the debug features is
observable.  Base: `LinearAllocator` over `[8, 108)`, request
`Allocate(size = 8, alignment = 8)`. -/
theorem claim_C5_counterexample :
    (Allocator.Allocate true true linearOps (⟨8, 108, 8⟩ : LinearAllocator) 8 8 {}).1 =
        ⟨24, 8⟩ ∧
    (Allocator.Allocate false false linearOps (⟨8, 108, 8⟩ : LinearAllocator) 8 8 {}).1 =
        ⟨8, 8⟩ ∧
    (24 : Nat) ≠ 8 := by
  refine ⟨by decide, by decide, by decide⟩

/-- C5 amended: toggling the *marking* policy alone (bounds-checking held
fixed) changes neither the `AllocationResult` returned to the caller nor the
base allocator's state — marking only adds byte-pattern fills.  Toggling
*bounds-checking* does change the returned address and the widened request,
as `claim_C5_counterexample` shows. -/
theorem claim_C5_amended {S : Type} (BoundCheck Mark1 Mark2 : Bool)
    (base : AllocatorOps S) (s : S) (size alignment : Nat)
    (info : AllocationSourceInfo) :
    (Allocator.Allocate BoundCheck Mark1 base s size alignment info).1 =
      (Allocator.Allocate BoundCheck Mark2 base s size alignment info).1 ∧
    (Allocator.Allocate BoundCheck Mark1 base s size alignment info).2.1 =
      (Allocator.Allocate BoundCheck Mark2 base s size alignment info).2.1 := by
  unfold Allocator.Allocate
  by_cases h : (base.Allocate s
      ((if BoundCheck then (if BoundCheck ∧ alignment < MemoryIndexAlign then MemoryIndexAlign else alignment) else 0) +
       (if BoundCheck then (if BoundCheck ∧ alignment < MemoryIndexAlign then MemoryIndexAlign else alignment) else 0) +
       size +
       (if BoundCheck then (if BoundCheck ∧ alignment < MemoryIndexAlign then MemoryIndexAlign else alignment) else 0))
      (if BoundCheck ∧ alignment < MemoryIndexAlign then MemoryIndexAlign else alignment)
      info).1.IsSuccess <;>
    simp [h]

/-- Any successful result of the first-fit scan loop grants at least the
requested size: a hit either splits the node (recorded size becomes exactly
`size`) or consumes a node whose recorded size was already `≥ size`. -/
theorem allocInternalLoop_size_le (size : Nat) :
    ∀ (fuel : Nat) (mem : Nat → FreeListNode) (fl prev curr : Nat),
      (AllocateInternalLoop fuel mem fl size prev curr).1.IsSuccess →
      size ≤ (AllocateInternalLoop fuel mem fl size prev curr).1.num_bytes := by
  intro fuel
  induction fuel with
  | zero =>
    intro mem fl prev curr h
    exact absurd h AllocationResult.Null_not_IsSuccess
  | succ n ih =>
    intro mem fl prev curr
    unfold AllocateInternalLoop
    by_cases hc : curr = 0
    · rw [if_pos hc]
      intro h
      exact absurd h AllocationResult.Null_not_IsSuccess
    · rw [if_neg hc]
      by_cases hlt : (mem curr).size < size
      · rw [if_pos hlt]
        exact ih mem fl curr (mem curr).next
      · rw [if_neg hlt]
        intro _
        dsimp only
        by_cases hp : prev ≠ 0 <;>
          by_cases hsp : (mem curr).size - size > FreeListNodeSize <;>
            simp [hp, hsp, setNode_next_size, setNode_self] <;> omega

/-- C1: for each strategy allocator (Linear, Stack, Pool, Free-List), a
successful `Allocate(size, alignment, source_info)` under the strategy's
stated preconditions (valid power-of-two alignment; for Pool additionally
`size <= block_size` and `alignment <=` the pool alignment, with the pool's
free blocks at pool-aligned addresses; for Free-List
`alignment <= FreeList::MaxAlignment`) returns `byte_count >= size` and a
pointer aligned to at least `alignment`. -/
theorem claim_C1 :
    (∀ (st : LinearAllocator) (size alignment : Nat) (info : AllocationSourceInfo),
      Memory.IsValidAlignment alignment →
      (st.Allocate size alignment info).1.IsSuccess →
      size ≤ (st.Allocate size alignment info).1.num_bytes ∧
        (st.Allocate size alignment info).1.ptr % alignment = 0) ∧
    (∀ (st : StackAllocator) (size alignment : Nat) (info : AllocationSourceInfo),
      Memory.IsValidAlignment alignment →
      (st.Allocate size alignment info).1.IsSuccess →
      size ≤ (st.Allocate size alignment info).1.num_bytes ∧
        (st.Allocate size alignment info).1.ptr % alignment = 0) ∧
    (∀ (st : PoolAllocator) (size alignment : Nat) (info : AllocationSourceInfo),
      Memory.IsValidAlignment alignment →
      Memory.IsValidAlignment st.alignment →
      size ≤ st.blockSize →
      alignment ≤ st.alignment →
      (∀ blk ∈ st.poolHead, blk % st.alignment = 0) →
      (st.Allocate size alignment info).1.IsSuccess →
      size ≤ (st.Allocate size alignment info).1.num_bytes ∧
        (st.Allocate size alignment info).1.ptr % alignment = 0) ∧
    (∀ (fuel : Nat) (st : FreeListAllocator) (size alignment : Nat)
        (info : AllocationSourceInfo),
      Memory.IsValidAlignment alignment →
      alignment ≤ FreeListMaxAlignment →
      (FreeListAllocator.Allocate fuel st size alignment info).1.IsSuccess →
      size ≤ (FreeListAllocator.Allocate fuel st size alignment info).1.num_bytes ∧
        (FreeListAllocator.Allocate fuel st size alignment info).1.ptr % alignment = 0) := by
  refine ⟨?_, ?_, ?_, ?_⟩
  · -- Linear
    intro st size alignment info hva
    unfold LinearAllocator.Allocate
    by_cases h0 : size ≠ 0
    · rw [if_pos h0]
      by_cases h1 : Memory.AlignPointer st.current alignment + size ≤ st.memoryEnd
      · rw [if_pos h1]
        intro _
        exact ⟨Nat.le_refl _, Memory.AlignPointer_mod _ _⟩
      · rw [if_neg h1]
        intro h
        exact absurd h AllocationResult.Null_not_IsSuccess
    · rw [if_neg h0]
      intro h
      exact absurd h AllocationResult.Null_not_IsSuccess
  · -- Stack
    intro st size alignment info hva
    unfold StackAllocator.Allocate
    by_cases h1 : Memory.AlignPointer (st.stackPtr + StackAllocatorHeaderSize) alignment +
        (size + StackAllocatorHeaderSize) ≤ st.memoryEnd
    · rw [if_pos h1]
      intro _
      exact ⟨Nat.le_refl _, Memory.AlignPointer_mod _ _⟩
    · rw [if_neg h1]
      intro h
      exact absurd h AllocationResult.Null_not_IsSuccess
  · -- Pool
    intro st size alignment info hva hpa hsize halign hinv
    unfold PoolAllocator.Allocate
    rcases hl : st.poolHead with _ | ⟨blk, rest⟩
    · intro h
      exact absurd h AllocationResult.Null_not_IsSuccess
    · intro _
      refine ⟨hsize, ?_⟩
      have hmem : blk ∈ st.poolHead := by rw [hl]; exact List.mem_cons_self _ _
      have hmod : blk % st.alignment = 0 := hinv blk hmem
      have hdvd : alignment ∣ blk :=
        dvd_trans (Memory.IsValidAlignment.dvd_of_le hva hpa halign)
          (Nat.dvd_of_mod_eq_zero hmod)
      show blk % alignment = 0
      obtain ⟨k, hk⟩ := hdvd
      rw [hk]
      exact Nat.mul_mod_right _ _
  · -- Free-List
    intro fuel st size alignment info hva hmax
    have hal1 : 0 < alignment := hva.1
    unfold FreeListAllocator.Allocate
    dsimp only
    by_cases hin :
        (st.AllocateInternal fuel (AlignedAllocationSize size alignment)).1.IsSuccess
    · rw [if_pos hin]
      intro _
      refine ⟨?_, Memory.AlignPointer_mod _ _⟩
      have hnb :
          AlignedAllocationSize size alignment ≤
            (st.AllocateInternal fuel (AlignedAllocationSize size alignment)).1.num_bytes :=
        allocInternalLoop_size_le _ fuel st.mem st.freelist 0 st.freelist hin
      set A := (st.AllocateInternal fuel (AlignedAllocationSize size alignment)).1 with hA
      show size ≤ A.num_bytes - (Memory.AlignPointer (A.ptr + 1) alignment - A.ptr) % 256
      rcases Nat.eq_zero_or_pos size with h0 | h0
      · omega
      · have hd1 : A.ptr + 1 ≤ Memory.AlignPointer (A.ptr + 1) alignment :=
          Memory.le_AlignPointer _ _ hal1
        have hd2 : Memory.AlignPointer (A.ptr + 1) alignment ≤ A.ptr + 1 + (alignment - 1) :=
          Memory.AlignPointer_le _ _
        have hasz : AlignedAllocationSize size alignment = 1 + size + (alignment - 1) := by
          unfold AlignedAllocationSize AlignmentHeaderSize
          rw [if_pos (by omega)]
        rw [hasz] at hnb
        have hmax' : alignment ≤ 255 := hmax
        have hofs :
            (Memory.AlignPointer (A.ptr + 1) alignment - A.ptr) % 256 =
              Memory.AlignPointer (A.ptr + 1) alignment - A.ptr :=
          Nat.mod_eq_of_lt (by omega)
        rw [hofs]
        omega
    · rw [if_neg hin]
      intro h
      exact absurd h AllocationResult.Null_not_IsSuccess

/-- Witness for C1: concrete successful allocations for all four
strategies. -/
theorem claim_C1_witness :
    (4 ≤ ((⟨8, 72, 8⟩ : LinearAllocator).Allocate 4 8 {}).1.num_bytes ∧
      ((⟨8, 72, 8⟩ : LinearAllocator).Allocate 4 8 {}).1.ptr % 8 = 0) ∧
    (8 ≤ ((⟨8, 1032, fun _ => ⟨0, 0⟩⟩ : StackAllocator).Allocate 8 8 {}).1.num_bytes ∧
      ((⟨8, 1032, fun _ => ⟨0, 0⟩⟩ : StackAllocator).Allocate 8 8 {}).1.ptr % 8 = 0) ∧
    (16 ≤ ((⟨8, 72, 16, 8, [8, 24], 2⟩ : PoolAllocator).Allocate 16 8 {}).1.num_bytes ∧
      ((⟨8, 72, 16, 8, [8, 24], 2⟩ : PoolAllocator).Allocate 16 8 {}).1.ptr % 8 = 0) ∧
    (4 ≤ (FreeListAllocator.Allocate 3 (FreeListAllocator.mkInit 8 64) 4 2 {}).1.num_bytes ∧
      (FreeListAllocator.Allocate 3 (FreeListAllocator.mkInit 8 64) 4 2 {}).1.ptr % 2 = 0) :=
  ⟨claim_C1.1 ⟨8, 72, 8⟩ 4 8 {} (by decide) (by decide),
   claim_C1.2.1 ⟨8, 1032, fun _ => ⟨0, 0⟩⟩ 8 8 {} (by decide) (by decide),
   claim_C1.2.2.1 ⟨8, 72, 16, 8, [8, 24], 2⟩ 16 8 {} (by decide) (by decide) (by decide)
     (by decide) (by decide) (by decide),
   claim_C1.2.2.2 3 (FreeListAllocator.mkInit 8 64) 4 2 {} (by decide) (by decide) (by decide)⟩

/-- C2 (code bug): Stack allocator over `[8, 1032)`; `Allocate(A: 16, 8)`
returns pointer 24, `Allocate(B: 32, 8)` returns pointer 56.  The header
stored for B records `num_bytes = 32 + sizeof(StackAllocatorHeader) = 48`
and `restore = 40`, which *is* exactly the pre-B stack pointer — but
`Deallocate(56, 32, 8)`, called with the very size and alignment passed to
B's `Allocate`, trips the `header.num_bytes == size` assertion (48 ≠ 32)
instead of succeeding and restoring the stack pointer. -/
theorem claim_C2_code_bug :
    (((⟨8, 1032, fun _ => ⟨0, 0⟩⟩ : StackAllocator).Allocate 16 8 {}).1.IsSuccess) ∧
    ((((⟨8, 1032, fun _ => ⟨0, 0⟩⟩ : StackAllocator).Allocate 16 8 {}).2.Allocate
        32 8 {}).1.IsSuccess) ∧
    (let b := ((⟨8, 1032, fun _ => ⟨0, 0⟩⟩ : StackAllocator).Allocate 16 8 {}).2.Allocate
        32 8 {}
     (b.2.headers (b.1.ptr - StackAllocatorHeaderSize)).restore =
        ((⟨8, 1032, fun _ => ⟨0, 0⟩⟩ : StackAllocator).Allocate 16 8 {}).2.stackPtr ∧
     (b.2.headers (b.1.ptr - StackAllocatorHeaderSize)).num_bytes = 48 ∧
     (b.2.Deallocate b.1.ptr 32 8).isNone = true) := by
  refine ⟨by decide, by decide, by decide, by decide, by decide⟩

theorem writeHeader_self (m : Nat → StackAllocatorHeader) (addr : Nat)
    (h : StackAllocatorHeader) : writeHeader m addr h addr = h := by
  simp [writeHeader]

theorem writeHeader_other (m : Nat → StackAllocatorHeader) (addr : Nat)
    (h : StackAllocatorHeader) (x : Nat) (hx : x ≠ addr) :
    writeHeader m addr h x = m x := by
  simp [writeHeader, hx]

/-- C3: after `Allocate(A)` then `Allocate(B)` both succeed and while B is
still live, `Deallocate` of A with A's size and alignment is rejected by the
assertion mechanism (the model returns `none`) rather than proceeding.  The
`hsep` hypothesis states that B's header slot is distinct from A's — true of
every non-degenerate pair of live allocations (A's header would otherwise
have been overwritten, i.e. A would no longer be live). -/
theorem claim_C3 (st0 : StackAllocator) (sizeA alignA sizeB alignB : Nat)
    (infoA infoB : AllocationSourceInfo)
    (hvA : Memory.IsValidAlignment alignA) (hvB : Memory.IsValidAlignment alignB)
    (hA : (st0.Allocate sizeA alignA infoA).1.IsSuccess)
    (hB : ((st0.Allocate sizeA alignA infoA).2.Allocate sizeB alignB infoB).1.IsSuccess)
    (hsep :
      Memory.AlignPointer
          ((st0.Allocate sizeA alignA infoA).2.stackPtr + StackAllocatorHeaderSize) alignB ≠
        (st0.Allocate sizeA alignA infoA).1.ptr) :
    (((st0.Allocate sizeA alignA infoA).2.Allocate sizeB alignB infoB).2.Deallocate
        (st0.Allocate sizeA alignA infoA).1.ptr sizeA alignA).isNone = true := by
  have h16 : StackAllocatorHeaderSize = 16 := rfl
  unfold StackAllocator.Allocate at hA hB hsep ⊢
  by_cases hc1 :
      Memory.AlignPointer (st0.stackPtr + StackAllocatorHeaderSize) alignA +
        (sizeA + StackAllocatorHeaderSize) ≤ st0.memoryEnd
  case neg =>
    rw [if_neg hc1] at hA
    exact absurd hA AllocationResult.Null_not_IsSuccess
  rw [if_pos hc1] at hB hsep ⊢
  dsimp only at hB hsep ⊢
  by_cases hc2 :
      Memory.AlignPointer
          (st0.stackPtr + (sizeA + StackAllocatorHeaderSize) + StackAllocatorHeaderSize)
          alignB + (sizeB + StackAllocatorHeaderSize) ≤ st0.memoryEnd
  case neg =>
    rw [if_neg hc2] at hB
    exact absurd hB AllocationResult.Null_not_IsSuccess
  rw [if_pos hc2]
  dsimp only
  unfold StackAllocator.Deallocate
  dsimp only
  have hp1 := Memory.le_AlignPointer (st0.stackPtr + StackAllocatorHeaderSize) alignA hvA.1
  have hp2 := Memory.le_AlignPointer
    (st0.stackPtr + (sizeA + StackAllocatorHeaderSize) + StackAllocatorHeaderSize) alignB hvB.1
  have hsep' :
      Memory.AlignPointer (st0.stackPtr + StackAllocatorHeaderSize) alignA -
          StackAllocatorHeaderSize ≠
        Memory.AlignPointer
            (st0.stackPtr + (sizeA + StackAllocatorHeaderSize) + StackAllocatorHeaderSize)
            alignB - StackAllocatorHeaderSize := by
    rw [h16] at hp1 hp2 hsep ⊢
    omega
  rw [writeHeader_other _ _ _ _ hsep', writeHeader_self]
  rw [if_neg ?_]
  · rfl
  · intro hcond
    have h1 := hcond.1
    dsimp only at h1
    omega

/-- Witness for C3: the concrete A/B scenario of `claim_C2_code_bug`;
`Deallocate(A)` while B is live is rejected. -/
theorem claim_C3_witness :
    ((((⟨8, 1032, fun _ => ⟨0, 0⟩⟩ : StackAllocator).Allocate 16 8 {}).2.Allocate
        32 8 {}).2.Deallocate
      ((⟨8, 1032, fun _ => ⟨0, 0⟩⟩ : StackAllocator).Allocate 16 8 {}).1.ptr 16 8).isNone =
      true :=
  claim_C3 ⟨8, 1032, fun _ => ⟨0, 0⟩⟩ 16 8 32 8 {} {} (by decide) (by decide)
    (by decide) (by decide) (by decide)

/-- Running invariants of a well-formed `Append` sequence: the accumulated
size only grows, every returned region starts at or after the size at its
`Append`, is aligned as requested and ends within the final size, regions
are laid out in increasing order, and the final alignment is the running
maximum. -/
theorem appendRun_spec (ts : List (Nat × Nat × Nat)) :
    ∀ (mr : MemoryRequirements), GoodRun mr ts →
      mr.size ≤ (appendFinal mr ts).size ∧
      (∀ r ∈ appendRegions mr ts,
          mr.size ≤ r.1 ∧ r.1 % r.2.2 = 0 ∧ r.1 + r.2.1 ≤ (appendFinal mr ts).size) ∧
      (appendRegions mr ts).Pairwise (fun r s => r.1 + r.2.1 ≤ s.1) ∧
      (appendFinal mr ts).alignment =
        ts.foldl (fun acc t => if t.2.2 > acc then t.2.2 else acc) mr.alignment := by
  induction ts with
  | nil =>
    intro mr _
    exact ⟨Nat.le_refl _, by simp [appendRegions], by simp [appendRegions],
      by simp [appendFinal]⟩
  | cons t ts ih =>
    obtain ⟨es, ec, ea⟩ := t
    intro mr hg
    have hg' : GoodStep mr (es, ec, ea) ∧ GoodRun (mr.Append es ec ea).1 ts := hg
    obtain ⟨hstep, hrun⟩ := hg'
    obtain ⟨hva, hsz, hov, hw1, hw2⟩ := hstep
    dsimp only at hva hsz hov hw1 hw2
    have happ : mr.Append es ec ea =
        ({ size := Memory.AlignSize mr.size ea + es * ec,
           alignment := if ea > mr.alignment then ea else mr.alignment },
         Memory.AlignSize mr.size ea) := by
      unfold MemoryRequirements.Append
      rw [if_neg (by simp [hov])]
      dsimp only
      rw [if_neg (by omega : ¬ es * ec = 0)]
      have hW : Memory.AlignSizeW mr.size ea = Memory.AlignSize mr.size ea := by
        unfold Memory.AlignSizeW Memory.AlignSize
        dsimp only
        rw [Nat.mod_eq_of_lt hw1]
        have hh := Nat.mod_add_div (mr.size + (ea - 1)) ea
        rw [Nat.mul_comm ea ((mr.size + (ea - 1)) / ea)] at hh
        omega
      rw [hW, Nat.mod_eq_of_lt hw2]
    have hfin : appendFinal mr ((es, ec, ea) :: ts) = appendFinal (mr.Append es ec ea).1 ts := by
      simp [appendFinal]
    have hregs : appendRegions mr ((es, ec, ea) :: ts) =
        ((mr.Append es ec ea).2, es * ec, ea) :: appendRegions (mr.Append es ec ea).1 ts := by
      simp [appendRegions]
    obtain ⟨ihmono, ihreg, ihpw, ihal⟩ := ih (mr.Append es ec ea).1 hrun
    have hms : (mr.Append es ec ea).1.size = Memory.AlignSize mr.size ea + es * ec := by
      rw [happ]
    have hoff : (mr.Append es ec ea).2 = Memory.AlignSize mr.size ea := by
      rw [happ]
    have hoffge : mr.size ≤ Memory.AlignSize mr.size ea :=
      Memory.le_AlignSize _ _ hva.1
    refine ⟨?_, ?_, ?_, ?_⟩
    · rw [hfin]
      omega
    · rw [hregs, hfin]
      intro r hr
      rcases List.mem_cons.1 hr with hr | hr
      · subst hr
        refine ⟨?_, ?_, ?_⟩
        · dsimp only
          omega
        · dsimp only
          rw [hoff]
          exact Memory.AlignSize_mod _ _
        · dsimp only
          rw [hoff]
          omega
      · obtain ⟨h1, h2, h3⟩ := ihreg r hr
        exact ⟨by omega, h2, h3⟩
    · rw [hregs]
      refine List.pairwise_cons.2 ⟨?_, ihpw⟩
      intro r hr
      dsimp only
      have := (ihreg r hr).1
      rw [hoff]
      omega
    · rw [hfin, ihal]
      have hal1 : (mr.Append es ec ea).1.alignment =
          if ea > mr.alignment then ea else mr.alignment := by rw [happ]
      rw [hal1]
      rfl

/-- C7 counterexample: on a fresh accumulator, `Append(1, 3, 1)` followed by
`Append(4, 0, 16)` — a zero-count append.  The second call returns offset 3,
which is not a multiple of its `element_alignment` 16, and the final
alignment stays 1 instead of the maximum element alignment seen (16): the
claim's universal quantification over *every* sequence of `Append` calls
fails. -/
theorem claim_C7_counterexample :
    appendRegions {} [(1, 3, 1), (4, 0, 16)] = [(0, 3, 1), (3, 0, 16)] ∧
    ¬ (∀ r ∈ appendRegions {} [(1, 3, 1), (4, 0, 16)], r.1 % r.2.2 = 0) ∧
    (appendFinal {} [(1, 3, 1), (4, 0, 16)]).alignment ≠ 16 := by
  refine ⟨by decide, by decide, by decide⟩

/-- C7 amended: for every sequence of `Append(element_size, element_count,
element_alignment)` calls on a fresh accumulator in which each call has a
valid power-of-two alignment, a non-zero `element_size * element_count`, no
multiply overflow and no 64-bit wrap of the running size (`GoodRun`), the
returned byte regions are pairwise disjoint, each offset is a multiple of
its element alignment, every region lies within `[0, final size)`, and the
final alignment equals the maximum element alignment seen (at least its
initial value 1). -/
theorem claim_C7_amended (ts : List (Nat × Nat × Nat)) (h : GoodRun {} ts) :
    (∀ r ∈ appendRegions {} ts,
        r.1 % r.2.2 = 0 ∧ r.1 + r.2.1 ≤ (appendFinal {} ts).size) ∧
    (appendRegions {} ts).Pairwise
      (fun r s => r.1 + r.2.1 ≤ s.1 ∨ s.1 + s.2.1 ≤ r.1) ∧
    (appendFinal {} ts).alignment =
      ts.foldl (fun acc t => if t.2.2 > acc then t.2.2 else acc) 1 := by
  obtain ⟨_, hreg, hpw, hal⟩ := appendRun_spec ts {} h
  exact ⟨fun r hr => ⟨(hreg r hr).2.1, (hreg r hr).2.2⟩,
    hpw.imp Or.inl, hal⟩

/-- Witness for C7 (amended): the spec's own example sequence
`Append<int>(); Append<char>(100); Append<float>(1, 16)`. -/
theorem claim_C7_amended_witness :
    (∀ r ∈ appendRegions {} [(4, 1, 4), (1, 100, 1), (4, 1, 16)],
        r.1 % r.2.2 = 0 ∧
          r.1 + r.2.1 ≤ (appendFinal {} [(4, 1, 4), (1, 100, 1), (4, 1, 16)]).size) ∧
    (appendRegions {} [(4, 1, 4), (1, 100, 1), (4, 1, 16)]).Pairwise
      (fun r s => r.1 + r.2.1 ≤ s.1 ∨ s.1 + s.2.1 ≤ r.1) ∧
    (appendFinal {} [(4, 1, 4), (1, 100, 1), (4, 1, 16)]).alignment =
      [(4, 1, 4), (1, 100, 1), (4, 1, 16)].foldl
        (fun acc t => if t.2.2 > acc then t.2.2 else acc) 1 :=
  claim_C7_amended [(4, 1, 4), (1, 100, 1), (4, 1, 16)] (by decide)

/-- `FreeMemory`'s chunk walk returns to the parent exactly one
`(chunk_bytes, m_ChunkMemSize + sizeof(ChunkFooter))` deallocation per chunk
in the list, in walk order. -/
theorem freeChunks_log {P : Type} (parent : AllocatorOps P) (cms al : Nat) :
    ∀ (chunks : List Nat) (p : P),
      (freeChunks parent cms al chunks p).2 =
        chunks.map (fun chunk => (chunk - cms, cms + ChunkFooterSize)) := by
  intro chunks
  induction chunks with
  | nil => intro p; rfl
  | cons c rest ih => intro p; simp [freeChunks, ih]

/-- One growing-pool `Allocate` preserves the immutable configuration and
extends the chunk list by exactly the footers of the chunks it obtained from
the parent (each requested with `m_ChunkMemSize + sizeof(ChunkFooter)`
bytes). -/
theorem growingPoolAllocate_chunks {P : Type} (parent : AllocatorOps P)
    (s : GrowingPoolAllocator) (p : P) (size alignment : Nat)
    (info : AllocationSourceInfo) :
    (s.Allocate parent p size alignment info).state.chunkMemSize = s.chunkMemSize ∧
    (s.Allocate parent p size alignment info).state.alignment = s.alignment ∧
    (s.Allocate parent p size alignment info).state.chunks =
      ((s.Allocate parent p size alignment info).parentAllocs.map
        (fun e => e.1 + s.chunkMemSize)).reverse ++ s.chunks ∧
    ∀ e ∈ (s.Allocate parent p size alignment info).parentAllocs,
      e.2 = s.chunkMemSize + ChunkFooterSize := by
  unfold GrowingPoolAllocator.Allocate
  cases hl : s.poolHead with
  | cons b rest => simp
  | nil =>
    by_cases hsucc :
        (parent.Allocate p (s.chunkMemSize + ChunkFooterSize) s.alignment info).1.IsSuccess
    · rw [if_pos hsucc]
      cases hsb : (PoolAllocator.SetupPool
          (parent.Allocate p (s.chunkMemSize + ChunkFooterSize) s.alignment info).1.ptr
          s.chunkMemSize s.blockSize s.alignment).blocks with
      | nil => simp [hsb]
      | cons hd tl => simp [hsb]
    · rw [if_neg hsucc]
      simp

/-- Running any sequence of growing-pool operations preserves the immutable
configuration, and the resulting chunk list is exactly the footers of the
chunks obtained from the parent during the run (most recent first), each
obtained with a request of `m_ChunkMemSize + sizeof(ChunkFooter)` bytes. -/
theorem runGrowingPool_chunks {P : Type} (parent : AllocatorOps P) :
    ∀ (ops : List GrowingPoolOp) (s : GrowingPoolAllocator) (p : P),
      (runGrowingPool parent ops s p).state.chunkMemSize = s.chunkMemSize ∧
      (runGrowingPool parent ops s p).state.alignment = s.alignment ∧
      (runGrowingPool parent ops s p).state.chunks =
        ((runGrowingPool parent ops s p).parentAllocs.map
          (fun e => e.1 + s.chunkMemSize)).reverse ++ s.chunks ∧
      ∀ e ∈ (runGrowingPool parent ops s p).parentAllocs,
        e.2 = s.chunkMemSize + ChunkFooterSize := by
  intro ops
  induction ops with
  | nil =>
    intro s p
    exact ⟨rfl, rfl, by simp [runGrowingPool], by simp [runGrowingPool]⟩
  | cons op rest ih =>
    intro s p
    cases op with
    | alloc size alignment info =>
      obtain ⟨hc1, ha1, hch1, hsz1⟩ := growingPoolAllocate_chunks parent s p size alignment info
      obtain ⟨hc2, ha2, hch2, hsz2⟩ := ih (s.Allocate parent p size alignment info).state
        (s.Allocate parent p size alignment info).parent
      simp only [runGrowingPool]
      refine ⟨by rw [hc2, hc1], by rw [ha2, ha1], ?_, ?_⟩
      · rw [hch2, hch1, hc1]
        simp [List.map_append, List.reverse_append]
      · intro e he
        rcases List.mem_append.1 he with he | he
        · exact hsz1 e he
        · rw [← hc1]
          exact hsz2 e he
    | dealloc ptr size alignment =>
      obtain ⟨hc2, ha2, hch2, hsz2⟩ := ih (s.Deallocate ptr size alignment) p
      simp only [runGrowingPool]
      exact ⟨hc2, ha2, hch2, hsz2⟩
    | clear =>
      obtain ⟨hc2, ha2, hch2, hsz2⟩ := ih s.Clear p
      simp only [runGrowingPool]
      exact ⟨hc2, ha2, hch2, hsz2⟩

/-- C8: for the Growing Pool allocator, after any sequence of
`Allocate`/`Deallocate`/`Clear` calls starting from a freshly constructed
allocator, `FreeMemory()` deallocates to the parent exactly the chunks
previously obtained from it — same addresses, and each with the same byte
size `m_ChunkMemSize + sizeof(ChunkFooter)` that was requested at allocation
time — so the total bytes returned to the parent equal the total bytes
obtained from it; afterwards the chunk and free lists are null. -/
theorem claim_C8 {P : Type} (parent : AllocatorOps P)
    (block_size block_alignment num_blocks : Nat) (ops : List GrowingPoolOp) (p : P) :
    let rr := runGrowingPool parent ops
      (GrowingPoolAllocator.mkInit block_size block_alignment num_blocks) p
    let fm := rr.state.FreeMemory parent rr.parent
    fm.2.2 = rr.parentAllocs.reverse ∧
    (fm.2.2.map Prod.snd).sum = (rr.parentAllocs.map Prod.snd).sum ∧
    fm.1.chunks = [] ∧ fm.1.poolHead = [] := by
  obtain ⟨hcms, hal, hch, hsz⟩ := runGrowingPool_chunks parent ops
    (GrowingPoolAllocator.mkInit block_size block_alignment num_blocks) p
  dsimp only
  have hlog :
      ((runGrowingPool parent ops
          (GrowingPoolAllocator.mkInit block_size block_alignment num_blocks) p).state.FreeMemory
        parent
        (runGrowingPool parent ops
          (GrowingPoolAllocator.mkInit block_size block_alignment num_blocks) p).parent).2.2 =
      (runGrowingPool parent ops
        (GrowingPoolAllocator.mkInit block_size block_alignment num_blocks) p).parentAllocs.reverse := by
    unfold GrowingPoolAllocator.FreeMemory
    dsimp only
    rw [freeChunks_log, hcms, hch]
    have hnil : (GrowingPoolAllocator.mkInit block_size block_alignment num_blocks).chunks = [] :=
      rfl
    rw [hnil, List.append_nil, List.map_reverse, List.map_map]
    congr 1
    conv_rhs => rw [← List.map_id (runGrowingPool parent ops
      (GrowingPoolAllocator.mkInit block_size block_alignment num_blocks) p).parentAllocs]
    refine List.map_congr_left ?_
    intro e he
    have h2 := hsz e he
    obtain ⟨e1, e2⟩ := e
    simp only [Function.comp, id, Prod.mk.injEq]
    exact ⟨by omega, h2.symm⟩
  refine ⟨hlog, ?_, rfl, rfl⟩
  rw [hlog, List.map_reverse, List.sum_reverse]

/-- First-fit hit on the list head with a split: the head node is large
enough and the remainder exceeds the minimum node footprint. -/
theorem allocLoop_head_split (fuel : Nat) (mem : Nat → FreeListNode)
    (fl curr size : Nat) (hc : curr ≠ 0) (hge : ¬ (mem curr).size < size)
    (hsp : (mem curr).size - size > FreeListNodeSize) :
    AllocateInternalLoop (fuel + 1) mem fl size 0 curr =
      ({ ptr := curr + AllocationHeaderSize, num_bytes := size },
       { freelist := curr + (AllocationHeaderSize + size),
         mem := setNode
           (setNode mem (curr + (AllocationHeaderSize + size))
             { size := (mem curr).size - (AllocationHeaderSize + size) - AllocationHeaderSize,
               next := (mem curr).next })
           curr { size := size, next := (mem curr).next } }) := by
  have h8 : AllocationHeaderSize = 8 := rfl
  have hcn : curr ≠ curr + (AllocationHeaderSize + size) := by omega
  unfold AllocateInternalLoop
  rw [if_neg hc, if_neg hge]
  dsimp only
  rw [if_pos hsp]
  rw [setNode_other _ _ _ _ hcn]
  simp [setNode_self]

/-- First-fit hit on the list head without a split: the head node is large
enough but the remainder is at most the minimum node footprint, so the whole
node is consumed. -/
theorem allocLoop_head_nosplit (fuel : Nat) (mem : Nat → FreeListNode)
    (fl curr size : Nat) (hc : curr ≠ 0) (hge : ¬ (mem curr).size < size)
    (hsp : ¬ ((mem curr).size - size > FreeListNodeSize)) :
    AllocateInternalLoop (fuel + 1) mem fl size 0 curr =
      ({ ptr := curr + AllocationHeaderSize, num_bytes := (mem curr).size },
       { freelist := (mem curr).next, mem := mem }) := by
  unfold AllocateInternalLoop
  rw [if_neg hc, if_neg hge]
  dsimp only
  rw [if_neg hsp]
  simp

/-- Deallocating into an empty free list: plain insert at the head with a
null `next`. -/
theorem deallocInternal_empty (fuel : Nat) (st : FreeListAllocator)
    (ptr size : Nat) (hfl : st.freelist = 0)
    (hsz : size ≤ (st.mem (ptr - AllocationHeaderSize)).size) :
    st.DeallocateInternal (fuel + 1) ptr size =
      some { freelist := ptr - AllocationHeaderSize,
             mem := setNode st.mem (ptr - AllocationHeaderSize)
               { st.mem (ptr - AllocationHeaderSize) with next := 0 } } := by
  unfold FreeListAllocator.DeallocateInternal
  rw [if_pos hsz]
  unfold DeallocateScanLoop
  rw [hfl]
  simp

/-- Deallocating when the free list holds a single node `q` that lies
*before* the freed node and ends exactly at it: the scan passes `q`, stops
at the list end, and the freed node is merged backward into `q`. -/
theorem deallocInternal_merge_prev_single (fuel : Nat) (st : FreeListAllocator)
    (ptr size q : Nat) (hfl : st.freelist = q) (hq : q ≠ 0)
    (hqn : (st.mem q).next = 0)
    (hsz : size ≤ (st.mem (ptr - AllocationHeaderSize)).size)
    (hlt : ¬ (ptr - AllocationHeaderSize + AllocationHeaderSize +
        (st.mem (ptr - AllocationHeaderSize)).size ≤ q))
    (hadj : q + AllocationHeaderSize + (st.mem q).size = ptr - AllocationHeaderSize) :
    st.DeallocateInternal (fuel + 2) ptr size =
      some { freelist := st.freelist,
             mem := setNode st.mem q
               { st.mem q with
                  size := (st.mem q).size +
                    ((st.mem (ptr - AllocationHeaderSize)).size + AllocationHeaderSize) } } := by
  unfold FreeListAllocator.DeallocateInternal
  rw [if_pos hsz]
  simp [DeallocateScanLoop, hfl, hqn, hq, hlt, hadj]

/-- Deallocating when the free list holds a node `q` that starts exactly at
the freed node's end: the scan stops immediately and the freed node absorbs
`q` (merge forward), becoming the new head. -/
theorem deallocInternal_merge_next_head (fuel : Nat) (st : FreeListAllocator)
    (ptr size q : Nat) (hfl : st.freelist = q) (hq : q ≠ 0)
    (hsz : size ≤ (st.mem (ptr - AllocationHeaderSize)).size)
    (hadj : ptr - AllocationHeaderSize + AllocationHeaderSize +
        (st.mem (ptr - AllocationHeaderSize)).size = q) :
    st.DeallocateInternal (fuel + 1) ptr size =
      some { freelist := ptr - AllocationHeaderSize,
             mem := setNode st.mem (ptr - AllocationHeaderSize)
               { size := (st.mem (ptr - AllocationHeaderSize)).size +
                   ((st.mem q).size + AllocationHeaderSize),
                 next := (st.mem q).next } } := by
  unfold FreeListAllocator.DeallocateInternal
  rw [if_pos hsz]
  simp [DeallocateScanLoop, hfl, hq, hadj]

theorem freeNodesGo_zero (fuel : Nat) (mem : Nat → FreeListNode) :
    freeNodesGo fuel mem 0 = [] := by
  cases fuel <;> rfl

theorem freeNodesGo_pos (fuel : Nat) (mem : Nat → FreeListNode) (a : Nat)
    (ha : a ≠ 0) :
    freeNodesGo (fuel + 1) mem a = (a, (mem a).size) :: freeNodesGo fuel mem (mem a).next := by
  cases a with
  | zero => exact absurd rfl ha
  | succ n => rfl

/-- C4 counterexample: fresh free-list allocator over `[8, 168)` (one free
node of 152 payload bytes).  `AllocateInternal(100)` carves block A at 8
(payload pointer 16) and `AllocateInternal(10)` carves the adjacent block B
at 116 (payload pointer 124), leaving a trailing remainder free node at 134.
Freeing A *then* B merges B only forward into the remainder — each
deallocation performs exactly one merge — so the free list ends as TWO nodes
`[(8, 100), (116, 28)]` rather than a single coalesced node spanning both
blocks, and a subsequent allocation of the combined size
`100 + 10 + sizeof(AllocationHeader) = 118` fails. -/
theorem claim_C4_counterexample :
    (((FreeListAllocator.AllocateInternal 4
            (FreeListAllocator.AllocateInternal 4 (FreeListAllocator.mkInit 8 160) 100).2
            10).2.DeallocateInternal 4 16 100).bind
          (fun st => st.DeallocateInternal 4 124 10)).map (fun st => freeNodes 4 st) =
        some [(8, 100), (116, 28)] ∧
    (((FreeListAllocator.AllocateInternal 4
            (FreeListAllocator.AllocateInternal 4 (FreeListAllocator.mkInit 8 160) 100).2
            10).2.DeallocateInternal 4 16 100).bind
          (fun st => st.DeallocateInternal 4 124 10)).map
        (fun st => (st.AllocateInternal 4 118).1) =
      some AllocationResult.Null := by
  refine ⟨by decide, by decide⟩

/-- C4 amended: allocating two adjacent blocks A (size `a`) and B (size `c`)
from a fresh free-list arena whose single free node has `s0` payload bytes,
*when B's allocation consumes the whole remainder* (no trailing free
neighbour: `a + c + FreeListNodeSize ≤ s0 ≤ a + c + 2*FreeListNodeSize`,
with the first allocation splitting, `a + FreeListNodeSize < s0`), freeing
both in either order leaves the free list containing the single coalesced
node `(b, s0 - sizeof(AllocationHeader))` spanning both blocks' memory, and
a subsequent `AllocateInternal` of the combined size succeeds at that node.
(When a trailing free neighbour exists, freeing first-then-second instead
leaves the first block unmerged — `claim_C4_counterexample`.) -/
theorem claim_C4_amended (b s0 a c : Nat) (hb : 0 < b)
    (h1 : a + FreeListNodeSize < s0)
    (h2 : a + c + FreeListNodeSize ≤ s0)
    (h3 : s0 ≤ a + c + 2 * FreeListNodeSize)
    (rA rB : AllocationResult × FreeListAllocator)
    (hrA : rA = (FreeListAllocator.mkInit b (s0 + AllocationHeaderSize)).AllocateInternal 2 a)
    (hrB : rB = rA.2.AllocateInternal 2 c) :
    rA.1 = ⟨b + AllocationHeaderSize, a⟩ ∧
    rB.1 = ⟨b + a + 2 * AllocationHeaderSize, s0 - a - FreeListNodeSize⟩ ∧
    rA.1.ptr + rA.1.num_bytes + AllocationHeaderSize = rB.1.ptr ∧
    ((rB.2.DeallocateInternal 4 rA.1.ptr a).bind
        (fun st => st.DeallocateInternal 4 rB.1.ptr c)).map (freeNodes 4) =
      some [(b, s0 - AllocationHeaderSize)] ∧
    ((rB.2.DeallocateInternal 4 rB.1.ptr c).bind
        (fun st => st.DeallocateInternal 4 rA.1.ptr a)).map (freeNodes 4) =
      some [(b, s0 - AllocationHeaderSize)] ∧
    b + AllocationHeaderSize + (s0 - AllocationHeaderSize) = rB.1.ptr + rB.1.num_bytes ∧
    ((rB.2.DeallocateInternal 4 rA.1.ptr a).bind
        (fun st => st.DeallocateInternal 4 rB.1.ptr c)).map
        (fun st => (st.AllocateInternal 2 (s0 - AllocationHeaderSize)).1) =
      some ⟨b + AllocationHeaderSize, s0 - AllocationHeaderSize⟩ ∧
    ((rB.2.DeallocateInternal 4 rB.1.ptr c).bind
        (fun st => st.DeallocateInternal 4 rA.1.ptr a)).map
        (fun st => (st.AllocateInternal 2 (s0 - AllocationHeaderSize)).1) =
      some ⟨b + AllocationHeaderSize, s0 - AllocationHeaderSize⟩ := by
  have h8 : AllocationHeaderSize = 8 := rfl
  have h16 : FreeListNodeSize = 16 := rfl
  -- the fresh arena: one free node at `b` with payload `s0`
  have hM0 : FreeListAllocator.mkInit b (s0 + AllocationHeaderSize) =
      ⟨b, setNode (fun _ => ⟨0, 0⟩) b ⟨s0, 0⟩⟩ := by
    unfold FreeListAllocator.mkInit
    rw [show s0 + AllocationHeaderSize - AllocationHeaderSize = s0 by omega]
  set M0 : Nat → FreeListNode := setNode (fun _ => ⟨0, 0⟩) b ⟨s0, 0⟩ with hM0def
  have hM0b : M0 b = ⟨s0, 0⟩ := setNode_self _ _ _
  -- allocation of A: first-fit hit on the head with a split
  have hA : (FreeListAllocator.mkInit b (s0 + AllocationHeaderSize)).AllocateInternal 2 a =
      (⟨b + AllocationHeaderSize, a⟩,
       ⟨b + (AllocationHeaderSize + a),
        setNode (setNode M0 (b + (AllocationHeaderSize + a))
            ⟨s0 - (AllocationHeaderSize + a) - AllocationHeaderSize, 0⟩)
          b ⟨a, 0⟩⟩) := by
    rw [hM0]
    show AllocateInternalLoop 2 M0 b a 0 b = _
    rw [allocLoop_head_split 1 M0 b b a (by omega)
      (by rw [hM0b]; show ¬ s0 < a; omega)
      (by rw [hM0b]; show s0 - a > FreeListNodeSize; omega)]
    rw [hM0b]
  set n1 : Nat := b + (AllocationHeaderSize + a) with hn1
  set M1 : Nat → FreeListNode :=
    setNode (setNode M0 n1 ⟨s0 - (AllocationHeaderSize + a) - AllocationHeaderSize, 0⟩)
      b ⟨a, 0⟩ with hM1def
  have hn1b : n1 ≠ b := by omega
  have hM1b : M1 b = ⟨a, 0⟩ := setNode_self _ _ _
  have hM1n1 : M1 n1 = ⟨s0 - (AllocationHeaderSize + a) - AllocationHeaderSize, 0⟩ := by
    rw [hM1def, setNode_other _ _ _ _ hn1b, setNode_self]
  -- allocation of B: first-fit hit on the (single) remaining node, no split
  have hB : rA.2.AllocateInternal 2 c =
      (⟨n1 + AllocationHeaderSize, s0 - (AllocationHeaderSize + a) - AllocationHeaderSize⟩,
       ⟨0, M1⟩) := by
    rw [hrA, hA]
    show AllocateInternalLoop 2 M1 n1 c 0 n1 = _
    rw [allocLoop_head_nosplit 1 M1 n1 n1 c (by omega)
      (by rw [hM1n1]; show ¬ s0 - (AllocationHeaderSize + a) - AllocationHeaderSize < c; omega)
      (by rw [hM1n1];
          show ¬ (s0 - (AllocationHeaderSize + a) - AllocationHeaderSize - c > FreeListNodeSize)
          omega)]
    rw [hM1n1]
  have hrA1 : rA.1 = ⟨b + AllocationHeaderSize, a⟩ := by rw [hrA, hA]
  have hrB1 : rB.1 =
      ⟨n1 + AllocationHeaderSize, s0 - (AllocationHeaderSize + a) - AllocationHeaderSize⟩ := by
    rw [hrB, hB]
  have hrB2 : rB.2 = ⟨0, M1⟩ := by rw [hrB, hB]
  -- order 1, step 1: free A into the empty free list
  have hd1 : FreeListAllocator.DeallocateInternal 4 ⟨0, M1⟩ (b + AllocationHeaderSize) a =
      some ⟨b, setNode M1 b ⟨a, 0⟩⟩ := by
    have heq := deallocInternal_empty 3 ⟨0, M1⟩ (b + AllocationHeaderSize) a rfl
      (by dsimp only
          rw [show b + AllocationHeaderSize - AllocationHeaderSize = b by omega]
          simp [hM1b])
    dsimp only at heq
    rw [show b + AllocationHeaderSize - AllocationHeaderSize = b by omega] at heq
    simpa [hM1b] using heq
  set M3 : Nat → FreeListNode := setNode M1 b ⟨a, 0⟩ with hM3def
  have hM3b : M3 b = ⟨a, 0⟩ := setNode_self _ _ _
  have hM3n1 : M3 n1 = ⟨s0 - (AllocationHeaderSize + a) - AllocationHeaderSize, 0⟩ := by
    rw [hM3def, setNode_other _ _ _ _ hn1b, hM1n1]
  -- order 1, step 2: free B; the scan passes A and B merges backward into it
  have hd2 : FreeListAllocator.DeallocateInternal 4 ⟨b, M3⟩ (n1 + AllocationHeaderSize) c =
      some ⟨b, setNode M3 b ⟨s0 - AllocationHeaderSize, 0⟩⟩ := by
    have heq := deallocInternal_merge_prev_single 2 ⟨b, M3⟩ (n1 + AllocationHeaderSize) c b rfl
      (by omega) (by dsimp only; simp [hM3b])
      (by dsimp only
          rw [show n1 + AllocationHeaderSize - AllocationHeaderSize = n1 by omega, hM3n1]
          show c ≤ s0 - (AllocationHeaderSize + a) - AllocationHeaderSize
          omega)
      (by dsimp only
          rw [show n1 + AllocationHeaderSize - AllocationHeaderSize = n1 by omega, hM3n1]
          show ¬ (n1 + AllocationHeaderSize +
            (s0 - (AllocationHeaderSize + a) - AllocationHeaderSize) ≤ b)
          omega)
      (by dsimp only
          rw [show n1 + AllocationHeaderSize - AllocationHeaderSize = n1 by omega, hM3b]
          show b + AllocationHeaderSize + a = n1
          omega)
    dsimp only at heq
    rw [show n1 + AllocationHeaderSize - AllocationHeaderSize = n1 by omega] at heq
    rw [hM3b, hM3n1] at heq
    dsimp only at heq
    rw [show a + (s0 - (AllocationHeaderSize + a) - AllocationHeaderSize +
      AllocationHeaderSize) = s0 - AllocationHeaderSize by omega] at heq
    simpa using heq
  -- order 2, step 1: free B into the empty free list
  have hd1x : FreeListAllocator.DeallocateInternal 4 ⟨0, M1⟩ (n1 + AllocationHeaderSize) c =
      some ⟨n1, setNode M1 n1 ⟨s0 - (AllocationHeaderSize + a) - AllocationHeaderSize, 0⟩⟩ := by
    have heq := deallocInternal_empty 3 ⟨0, M1⟩ (n1 + AllocationHeaderSize) c rfl
      (by dsimp only
          rw [show n1 + AllocationHeaderSize - AllocationHeaderSize = n1 by omega, hM1n1]
          show c ≤ s0 - (AllocationHeaderSize + a) - AllocationHeaderSize
          omega)
    dsimp only at heq
    rw [show n1 + AllocationHeaderSize - AllocationHeaderSize = n1 by omega] at heq
    simpa [hM1n1] using heq
  set N3 : Nat → FreeListNode :=
    setNode M1 n1 ⟨s0 - (AllocationHeaderSize + a) - AllocationHeaderSize, 0⟩ with hN3eq
  have hN3b : N3 b = ⟨a, 0⟩ := by
    rw [hN3eq, setNode_other _ _ _ _ (by omega : b ≠ n1), hM1b]
  have hN3n1 : N3 n1 = ⟨s0 - (AllocationHeaderSize + a) - AllocationHeaderSize, 0⟩ :=
    setNode_self _ _ _
  -- order 2, step 2: free A; B's node starts exactly at A's end, merge forward
  have hd2x : FreeListAllocator.DeallocateInternal 4 ⟨n1, N3⟩ (b + AllocationHeaderSize) a =
      some ⟨b, setNode N3 b ⟨s0 - AllocationHeaderSize, 0⟩⟩ := by
    have heq := deallocInternal_merge_next_head 3 ⟨n1, N3⟩ (b + AllocationHeaderSize) a n1 rfl
      (by omega)
      (by dsimp only
          rw [show b + AllocationHeaderSize - AllocationHeaderSize = b by omega]
          simp [hN3b])
      (by dsimp only
          rw [show b + AllocationHeaderSize - AllocationHeaderSize = b by omega, hN3b]
          show b + AllocationHeaderSize + a = n1
          omega)
    dsimp only at heq
    rw [show b + AllocationHeaderSize - AllocationHeaderSize = b by omega] at heq
    rw [hN3b, hN3n1] at heq
    dsimp only at heq
    rw [show a + (s0 - (AllocationHeaderSize + a) - AllocationHeaderSize +
      AllocationHeaderSize) = s0 - AllocationHeaderSize by omega] at heq
    simpa using heq
  -- observing the final states
  have hfree : ∀ M : Nat → FreeListNode, M b = ⟨s0 - AllocationHeaderSize, 0⟩ →
      freeNodes 4 ⟨b, M⟩ = [(b, s0 - AllocationHeaderSize)] := by
    intro M hMb
    unfold freeNodes
    show freeNodesGo (3 + 1) M b = _
    rw [freeNodesGo_pos 3 M b (by omega), hMb]
    exact congrArg _ (freeNodesGo_zero _ _)
  have halloc : ∀ M : Nat → FreeListNode, M b = ⟨s0 - AllocationHeaderSize, 0⟩ →
      (FreeListAllocator.AllocateInternal 2 ⟨b, M⟩ (s0 - AllocationHeaderSize)).1 =
        ⟨b + AllocationHeaderSize, s0 - AllocationHeaderSize⟩ := by
    intro M hMb
    show (AllocateInternalLoop 2 M b (s0 - AllocationHeaderSize) 0 b).1 = _
    rw [allocLoop_head_nosplit 1 M b b (s0 - AllocationHeaderSize) (by omega)
      (by rw [hMb]; show ¬ s0 - AllocationHeaderSize < s0 - AllocationHeaderSize; omega)
      (by rw [hMb]
          show ¬ (s0 - AllocationHeaderSize - (s0 - AllocationHeaderSize) > FreeListNodeSize)
          omega)]
    rw [hMb]
  have hM4b : (setNode M3 b ⟨s0 - AllocationHeaderSize, 0⟩) b = ⟨s0 - AllocationHeaderSize, 0⟩ :=
    setNode_self _ _ _
  have hM4xb : (setNode N3 b ⟨s0 - AllocationHeaderSize, 0⟩) b = ⟨s0 - AllocationHeaderSize, 0⟩ :=
    setNode_self _ _ _
  refine ⟨hrA1, ?_, ?_, ?_, ?_, ?_, ?_, ?_⟩
  · rw [hrB1]
    simp only [AllocationResult.mk.injEq]
    omega
  · rw [hrA1, hrB1]
    dsimp only
    omega
  · rw [hrB2, hrA1, hrB1]
    dsimp only
    rw [hd1]
    show (FreeListAllocator.DeallocateInternal 4 ⟨b, M3⟩
        (n1 + AllocationHeaderSize) c).map (freeNodes 4) = _
    rw [hd2]
    show some (freeNodes 4 ⟨b, setNode M3 b ⟨s0 - AllocationHeaderSize, 0⟩⟩) = _
    rw [hfree _ hM4b]
  · rw [hrB2, hrA1, hrB1]
    dsimp only
    rw [hd1x]
    show (FreeListAllocator.DeallocateInternal 4 ⟨n1, N3⟩
        (b + AllocationHeaderSize) a).map (freeNodes 4) = _
    rw [hd2x]
    show some (freeNodes 4 ⟨b, setNode N3 b ⟨s0 - AllocationHeaderSize, 0⟩⟩) = _
    rw [hfree _ hM4xb]
  · rw [hrB1]
    dsimp only
    omega
  · rw [hrB2, hrA1, hrB1]
    dsimp only
    rw [hd1]
    show ((FreeListAllocator.DeallocateInternal 4 ⟨b, M3⟩
        (n1 + AllocationHeaderSize) c).map
        (fun st => (st.AllocateInternal 2 (s0 - AllocationHeaderSize)).1)) = _
    rw [hd2]
    show some ((FreeListAllocator.AllocateInternal 2
        ⟨b, setNode M3 b ⟨s0 - AllocationHeaderSize, 0⟩⟩ (s0 - AllocationHeaderSize)).1) = _
    rw [halloc _ hM4b]
  · rw [hrB2, hrA1, hrB1]
    dsimp only
    rw [hd1x]
    show ((FreeListAllocator.DeallocateInternal 4 ⟨n1, N3⟩
        (b + AllocationHeaderSize) a).map
        (fun st => (st.AllocateInternal 2 (s0 - AllocationHeaderSize)).1)) = _
    rw [hd2x]
    show some ((FreeListAllocator.AllocateInternal 2
        ⟨b, setNode N3 b ⟨s0 - AllocationHeaderSize, 0⟩⟩ (s0 - AllocationHeaderSize)).1) = _
    rw [halloc _ hM4xb]

/-- Witness for C4 (amended): arena `[8, 64)` (48 payload bytes), two
8-byte allocations tiling it exactly; both free orders coalesce to the
single node `(8, 40)` and an allocation of the combined size 40 succeeds. -/
theorem claim_C4_amended_witness :
    (let rA := (FreeListAllocator.mkInit 8 56).AllocateInternal 2 8
     let rB := rA.2.AllocateInternal 2 8
     rA.1 = ⟨16, 8⟩ ∧
     rB.1 = ⟨32, 24⟩ ∧
     rA.1.ptr + rA.1.num_bytes + AllocationHeaderSize = rB.1.ptr ∧
     ((rB.2.DeallocateInternal 4 rA.1.ptr 8).bind
         (fun st => st.DeallocateInternal 4 rB.1.ptr 8)).map (freeNodes 4) =
       some [(8, 40)] ∧
     ((rB.2.DeallocateInternal 4 rB.1.ptr 8).bind
         (fun st => st.DeallocateInternal 4 rA.1.ptr 8)).map (freeNodes 4) =
       some [(8, 40)] ∧
     8 + AllocationHeaderSize + (48 - AllocationHeaderSize) = rB.1.ptr + rB.1.num_bytes ∧
     ((rB.2.DeallocateInternal 4 rA.1.ptr 8).bind
         (fun st => st.DeallocateInternal 4 rB.1.ptr 8)).map
         (fun st => (st.AllocateInternal 2 40).1) = some ⟨16, 40⟩ ∧
     ((rB.2.DeallocateInternal 4 rB.1.ptr 8).bind
         (fun st => st.DeallocateInternal 4 rA.1.ptr 8)).map
         (fun st => (st.AllocateInternal 2 40).1) = some ⟨16, 40⟩) :=
  claim_C4_amended 8 48 8 8 (by decide) (by decide) (by decide) (by decide)
    ((FreeListAllocator.mkInit 8 56).AllocateInternal 2 8)
    (((FreeListAllocator.mkInit 8 56).AllocateInternal 2 8).2.AllocateInternal 2 8) rfl rfl

end BFMemory
